import Mathlib

/-!
Verification of the cascaded shadow mapping (CSM) subsystem of the
three-geospatial repository.

The development shallowly embeds, over the real numbers:

* the `three` library primitives the code uses (`Vector3`, `Matrix4`, `Box3`
  operations, transcribed from three.js r169, the revision the source is
  pinned to);
* the `CascadedShadows` class of the source file (its state, its
  `cascadeCount` accessor pair, `updateIntervals`, `getFrustumRadius`,
  `updateProjectionMatrix`, `updateInverseViewMatrix` and `update`);
* the `CloudsShadowMaterial` configuration setters;
* the helpers `splitFrustum`, `FrustumCorners`, `lerp` and
  `Ellipsoid.getSurfaceNormal`, which are repository modules imported by the
  source file but absent from the provided sources: these are modelled from
  the specification and are marked as such in their doc comments.

Machine numbers are modelled as exact reals; `invariant(cond)` of
tiny-invariant is modelled as an `Except` error result.
-/

namespace CSM

open Classical

noncomputable section

/-- three.js `Vector3`: three real components. -/
structure Vec3 where
  x : ℝ
  y : ℝ
  z : ℝ

/-- three.js `Vector2`: two real components. -/
structure Vec2 where
  x : ℝ
  y : ℝ

def Vec3.zero : Vec3 := ⟨0, 0, 0⟩

instance : Inhabited Vec3 := ⟨Vec3.zero⟩

/-- three.js `Vector3.add`. -/
def Vec3.add (a b : Vec3) : Vec3 := ⟨a.x + b.x, a.y + b.y, a.z + b.z⟩

/-- three.js `Vector3.sub` / `subVectors`. -/
def Vec3.sub (a b : Vec3) : Vec3 := ⟨a.x - b.x, a.y - b.y, a.z - b.z⟩

/-- three.js `Vector3.multiplyScalar`. -/
def Vec3.multiplyScalar (a : Vec3) (s : ℝ) : Vec3 := ⟨a.x * s, a.y * s, a.z * s⟩

/-- three.js `Vector3.dot`. -/
def Vec3.dot (a b : Vec3) : ℝ := a.x * b.x + a.y * b.y + a.z * b.z

/-- three.js `Vector3.cross` / `crossVectors`. -/
def Vec3.cross (a b : Vec3) : Vec3 :=
  ⟨a.y * b.z - a.z * b.y, a.z * b.x - a.x * b.z, a.x * b.y - a.y * b.x⟩

/-- three.js `Vector3.lengthSq`. -/
def Vec3.lengthSq (a : Vec3) : ℝ := a.x * a.x + a.y * a.y + a.z * a.z

/-- three.js `Vector3.length`. -/
def Vec3.len (a : Vec3) : ℝ := Real.sqrt (a.x * a.x + a.y * a.y + a.z * a.z)

/-- three.js `Vector3.normalize`: `divideScalar(length || 1)`, so the zero
vector is left unchanged. -/
def Vec3.normalize (a : Vec3) : Vec3 :=
  if a.len = 0 then a else ⟨a.x / a.len, a.y / a.len, a.z / a.len⟩

/-- three.js `Vector3.distanceTo`. -/
def Vec3.distanceTo (a b : Vec3) : ℝ := (a.sub b).len

/-- three.js `Matrix4`.  The sixteen fields `e0` … `e15` are the entries of
the column-major `elements` array, so the entry in row `r` and column `c`
(zero-based) is field `e(4*c + r)`. -/
structure Mat4 where
  e0 : ℝ
  e1 : ℝ
  e2 : ℝ
  e3 : ℝ
  e4 : ℝ
  e5 : ℝ
  e6 : ℝ
  e7 : ℝ
  e8 : ℝ
  e9 : ℝ
  e10 : ℝ
  e11 : ℝ
  e12 : ℝ
  e13 : ℝ
  e14 : ℝ
  e15 : ℝ

/-- `new Matrix4()` constructs the identity matrix in three.js. -/
def Mat4.identity : Mat4 := ⟨1, 0, 0, 0, 0, 1, 0, 0, 0, 0, 1, 0, 0, 0, 0, 1⟩

/-- The all-zero matrix, produced by three.js `Matrix4.invert` when the
determinant is zero. -/
def Mat4.zeroMat : Mat4 := ⟨0, 0, 0, 0, 0, 0, 0, 0, 0, 0, 0, 0, 0, 0, 0, 0⟩

instance : Inhabited Mat4 := ⟨Mat4.identity⟩

/-- three.js `Matrix4.multiplyMatrices(a, b)` (matrix product `a * b`). -/
def Mat4.mul (a b : Mat4) : Mat4 where
  e0 := a.e0 * b.e0 + a.e4 * b.e1 + a.e8 * b.e2 + a.e12 * b.e3
  e1 := a.e1 * b.e0 + a.e5 * b.e1 + a.e9 * b.e2 + a.e13 * b.e3
  e2 := a.e2 * b.e0 + a.e6 * b.e1 + a.e10 * b.e2 + a.e14 * b.e3
  e3 := a.e3 * b.e0 + a.e7 * b.e1 + a.e11 * b.e2 + a.e15 * b.e3
  e4 := a.e0 * b.e4 + a.e4 * b.e5 + a.e8 * b.e6 + a.e12 * b.e7
  e5 := a.e1 * b.e4 + a.e5 * b.e5 + a.e9 * b.e6 + a.e13 * b.e7
  e6 := a.e2 * b.e4 + a.e6 * b.e5 + a.e10 * b.e6 + a.e14 * b.e7
  e7 := a.e3 * b.e4 + a.e7 * b.e5 + a.e11 * b.e6 + a.e15 * b.e7
  e8 := a.e0 * b.e8 + a.e4 * b.e9 + a.e8 * b.e10 + a.e12 * b.e11
  e9 := a.e1 * b.e8 + a.e5 * b.e9 + a.e9 * b.e10 + a.e13 * b.e11
  e10 := a.e2 * b.e8 + a.e6 * b.e9 + a.e10 * b.e10 + a.e14 * b.e11
  e11 := a.e3 * b.e8 + a.e7 * b.e9 + a.e11 * b.e10 + a.e15 * b.e11
  e12 := a.e0 * b.e12 + a.e4 * b.e13 + a.e8 * b.e14 + a.e12 * b.e15
  e13 := a.e1 * b.e12 + a.e5 * b.e13 + a.e9 * b.e14 + a.e13 * b.e15
  e14 := a.e2 * b.e12 + a.e6 * b.e13 + a.e10 * b.e14 + a.e14 * b.e15
  e15 := a.e3 * b.e12 + a.e7 * b.e13 + a.e11 * b.e14 + a.e15 * b.e15

/-- three.js `Matrix4.makeOrthographic(left, right, top, bottom, near, far)`
for the WebGL coordinate system (the default). -/
def Mat4.makeOrthographic (left right top bottom near far : ℝ) : Mat4 :=
  let w := 1 / (right - left)
  let h := 1 / (top - bottom)
  let p := 1 / (far - near)
  let x := (right + left) * w
  let y := (top + bottom) * h
  let z := (far + near) * p
  let zInv := -2 * p
  ⟨2 * w, 0, 0, 0,
   0, 2 * h, 0, 0,
   0, 0, zInv, 0,
   -x, -y, -z, 1⟩

/-- three.js `Matrix4.setPosition(v)`: overwrite the translation column. -/
def Mat4.setPosition (m : Mat4) (v : Vec3) : Mat4 :=
  { m with e12 := v.x, e13 := v.y, e14 := v.z }

/-- The `_z` vector of three.js `Matrix4.lookAt(eye, target, up)`: the
difference `eye - target`, patched to `(·, ·, 1)` when it is of length zero. -/
def lookAtZ (eye target : Vec3) : Vec3 :=
  let z0 := eye.sub target
  if z0.lengthSq = 0 then ⟨z0.x, z0.y, 1⟩ else z0

/-- The three axis vectors `(x, y, z)` computed by three.js
`Matrix4.lookAt(eye, target, up)`, including the degenerate branch in which
`up` and `z` are parallel and `z` is perturbed by `0.0001`. -/
def lookAtAxes (eye target up : Vec3) : Vec3 × Vec3 × Vec3 :=
  let z := (lookAtZ eye target).normalize
  let x0 := up.cross z
  let xz :=
    if x0.lengthSq = 0 then
      let z1 := if |up.z| = 1 then Vec3.mk (z.x + 0.0001) z.y z.z
                else Vec3.mk z.x z.y (z.z + 0.0001)
      let z2 := z1.normalize
      (up.cross z2, z2)
    else (x0, z)
  let x := xz.1.normalize
  (x, xz.2.cross x, xz.2)

/-- three.js `Matrix4.lookAt(eye, target, up)`: overwrites only the nine
rotation entries of the receiver, leaving the fourth row and column as they
were. -/
def Mat4.lookAtModify (m : Mat4) (eye target up : Vec3) : Mat4 :=
  let a := lookAtAxes eye target up
  { m with
    e0 := a.1.x, e1 := a.1.y, e2 := a.1.z,
    e4 := a.2.1.x, e5 := a.2.1.y, e6 := a.2.1.z,
    e8 := a.2.2.x, e9 := a.2.2.y, e10 := a.2.2.z }

/-- three.js `Matrix4.invert`: cofactor inverse, or the zero matrix when the
determinant vanishes.  Variable names `nRC` match the three.js source (row
`R`, column `C`, one-based). -/
def Mat4.invert (m : Mat4) : Mat4 :=
  let n11 := m.e0
  let n21 := m.e1
  let n31 := m.e2
  let n41 := m.e3
  let n12 := m.e4
  let n22 := m.e5
  let n32 := m.e6
  let n42 := m.e7
  let n13 := m.e8
  let n23 := m.e9
  let n33 := m.e10
  let n43 := m.e11
  let n14 := m.e12
  let n24 := m.e13
  let n34 := m.e14
  let n44 := m.e15
  let t11 := n23 * n34 * n42 - n24 * n33 * n42 + n24 * n32 * n43 -
    n22 * n34 * n43 - n23 * n32 * n44 + n22 * n33 * n44
  let t12 := n14 * n33 * n42 - n13 * n34 * n42 - n14 * n32 * n43 +
    n12 * n34 * n43 + n13 * n32 * n44 - n12 * n33 * n44
  let t13 := n13 * n24 * n42 - n14 * n23 * n42 + n14 * n22 * n43 -
    n12 * n24 * n43 - n13 * n22 * n44 + n12 * n23 * n44
  let t14 := n14 * n23 * n32 - n13 * n24 * n32 - n14 * n22 * n33 +
    n12 * n24 * n33 + n13 * n22 * n34 - n12 * n23 * n34
  let det := n11 * t11 + n21 * t12 + n31 * t13 + n41 * t14
  if det = 0 then Mat4.zeroMat else
  let detInv := 1 / det
  ⟨t11 * detInv,
   (n24 * n33 * n41 - n23 * n34 * n41 - n24 * n31 * n43 +
     n21 * n34 * n43 + n23 * n31 * n44 - n21 * n33 * n44) * detInv,
   (n22 * n34 * n41 - n24 * n32 * n41 + n24 * n31 * n42 -
     n21 * n34 * n42 - n22 * n31 * n44 + n21 * n32 * n44) * detInv,
   (n23 * n32 * n41 - n22 * n33 * n41 - n23 * n31 * n42 +
     n21 * n33 * n42 + n22 * n31 * n43 - n21 * n32 * n43) * detInv,
   t12 * detInv,
   (n13 * n34 * n41 - n14 * n33 * n41 + n14 * n31 * n43 -
     n11 * n34 * n43 - n13 * n31 * n44 + n11 * n33 * n44) * detInv,
   (n14 * n32 * n41 - n12 * n34 * n41 - n14 * n31 * n42 +
     n11 * n34 * n42 + n12 * n31 * n44 - n11 * n32 * n44) * detInv,
   (n12 * n33 * n41 - n13 * n32 * n41 + n13 * n31 * n42 -
     n11 * n33 * n42 - n12 * n31 * n43 + n11 * n32 * n43) * detInv,
   t13 * detInv,
   (n14 * n23 * n41 - n13 * n24 * n41 - n14 * n21 * n43 +
     n11 * n24 * n43 + n13 * n21 * n44 - n11 * n23 * n44) * detInv,
   (n12 * n24 * n41 - n14 * n22 * n41 + n14 * n21 * n42 -
     n11 * n24 * n42 - n12 * n21 * n44 + n11 * n22 * n44) * detInv,
   (n13 * n22 * n41 - n12 * n23 * n41 - n13 * n21 * n42 +
     n11 * n23 * n42 + n12 * n21 * n43 - n11 * n22 * n43) * detInv,
   t14 * detInv,
   (n13 * n24 * n31 - n14 * n23 * n31 + n14 * n21 * n33 -
     n11 * n24 * n33 - n13 * n21 * n34 + n11 * n23 * n34) * detInv,
   (n14 * n22 * n31 - n12 * n24 * n31 - n14 * n21 * n32 +
     n11 * n24 * n32 + n12 * n21 * n34 - n11 * n22 * n34) * detInv,
   (n12 * n23 * n31 - n13 * n22 * n31 + n13 * n21 * n32 -
     n11 * n23 * n32 - n12 * n21 * n33 + n11 * n22 * n33) * detInv⟩

/-- three.js `Vector3.applyMatrix4` (with perspective divide). -/
def Vec3.applyMatrix4 (v : Vec3) (m : Mat4) : Vec3 :=
  let w := 1 / (m.e3 * v.x + m.e7 * v.y + m.e11 * v.z + m.e15)
  ⟨(m.e0 * v.x + m.e4 * v.y + m.e8 * v.z + m.e12) * w,
   (m.e1 * v.x + m.e5 * v.y + m.e9 * v.z + m.e13) * w,
   (m.e2 * v.x + m.e6 * v.y + m.e10 * v.z + m.e14) * w⟩

/-- three.js `Box3` (axis-aligned bounding box). -/
structure Box3 where
  min : Vec3
  max : Vec3

/-- three.js `Box3.expandByPoint`. -/
def Box3.expandByPoint (b : Box3) (p : Vec3) : Box3 :=
  ⟨⟨Min.min b.min.x p.x, Min.min b.min.y p.y, Min.min b.min.z p.z⟩,
   ⟨Max.max b.max.x p.x, Max.max b.max.y p.y, Max.max b.max.z p.z⟩⟩

/-- A box expanded from a single point, as `makeEmpty()` followed by a first
`expandByPoint(p)` produces in three.js. -/
def Box3.ofPoint (p : Vec3) : Box3 := ⟨p, p⟩

/-- three.js `Box3.getCenter` (the source never queries an empty box: the box
always contains the eight frustum corners, so the empty-box branch of
three.js cannot be taken and is not modelled). -/
def Box3.getCenter (b : Box3) : Vec3 :=
  ⟨(b.min.x + b.max.x) * 0.5, (b.min.y + b.max.y) * 0.5, (b.min.z + b.max.z) * 0.5⟩

/-- Modelled from the spec: `lerp(a, b, t)` of `@takram/three-geospatial`
(whose source is not under src/) is linear interpolation `a + (b - a) * t`,
used unclamped. -/
def lerp (a b t : ℝ) : ℝ := a + (b - a) * t

/-- JavaScript `Math.round`: round half toward positive infinity. -/
def jsRound (r : ℝ) : ℝ := (⌊r + 1 / 2⌋ : ℤ)

/-- The texel snapping performed on the light-space box center in
`updateInverseViewMatrix`: x and y are rounded to whole multiples of the
texel sizes, z is untouched. -/
def snapCenter (c : Vec3) (texelWidth texelHeight : ℝ) : Vec3 :=
  ⟨jsRound (c.x / texelWidth) * texelWidth,
   jsRound (c.y / texelHeight) * texelHeight,
   c.z⟩

/-- `extractOrthographicTuple(matrix)` of the source file: recover
`(left, right, top, bottom)` from an orthographic projection matrix. -/
def extractOrthographicTuple (matrix : Mat4) : ℝ × ℝ × ℝ × ℝ :=
  let m00 := matrix.e0
  let m03 := matrix.e12
  let m11 := matrix.e5
  let m13 := matrix.e13
  let RmL := 2 / m00
  let RpL := RmL * -m03
  let TmB := 2 / m11
  let TpB := TmB * -m13
  ((RpL - RmL) / 2, (RmL + RpL) / 2, (TmB + TpB) / 2, (TpB - TmB) / 2)

/-- The `FrustumSplitMode` union type of the source: one of the strings
`uniform`, `logarithmic` or `practical`. -/
inductive FrustumSplitMode where
  | uniform
  | logarithmic
  | practical

/-- Modelled from the spec: the `i`-th (zero-based) uniform split distance,
`near + (far - near) * j / count` for one-based index `j = i + 1`. -/
def uniformSplit (count : ℕ) (near far : ℝ) (i : ℕ) : ℝ :=
  near + (far - near) * ((i : ℝ) + 1) / count

/-- Modelled from the spec: the `i`-th (zero-based) logarithmic split
distance, `near * (far / near) ^ (j / count)` for one-based index
`j = i + 1`. -/
def logarithmicSplit (count : ℕ) (near far : ℝ) (i : ℕ) : ℝ :=
  near * (far / near) ^ (((i : ℝ) + 1) / (count : ℝ))

/-- Modelled from the spec: the value of the `i`-th (zero-based) of the
`count` split distances produced by `splitFrustum` (whose source module is
not under src/): uniform, logarithmic, or their `lambda`-blend
(`practical`). -/
def splitValue (mode : FrustumSplitMode) (count : ℕ) (near far lambda : ℝ)
    (i : ℕ) : ℝ :=
  match mode with
  | .uniform => uniformSplit count near far i
  | .logarithmic => logarithmicSplit count near far i
  | .practical =>
      lambda * logarithmicSplit count near far i +
        (1 - lambda) * uniformSplit count near far i

/-- Modelled from the spec: `splitFrustum(mode, count, near, far, lambda)`
returns the ordered sequence of `count` split distances (the source writes
them into a result array; the model returns the list). -/
def splitFrustum (mode : FrustumSplitMode) (count : ℕ) (near far lambda : ℝ) :
    List ℝ :=
  (List.range count).map (splitValue mode count near far lambda)

/-- Modelled from the spec: `FrustumCorners` (whose source module is not
under src/) holds eight corner points, four on the near plane and four on the
far plane, in a fixed winding in which indices 0 and 2 are diagonal
opposites. -/
structure FrustumCorners where
  n0 : Vec3
  n1 : Vec3
  n2 : Vec3
  n3 : Vec3
  f0 : Vec3
  f1 : Vec3
  f2 : Vec3
  f3 : Vec3

instance : Inhabited FrustumCorners :=
  ⟨⟨Vec3.zero, Vec3.zero, Vec3.zero, Vec3.zero,
    Vec3.zero, Vec3.zero, Vec3.zero, Vec3.zero⟩⟩

/-- The camera state consumed from the host engine: clip planes, the
projection slopes (half of the vertical frustum extent per unit depth, and
the aspect ratio), and the world transform. -/
structure PerspectiveCam where
  near : ℝ
  far : ℝ
  tanHalfFovY : ℝ
  aspect : ℝ
  matrixWorld : Mat4

/-- three.js `Object3D.getWorldPosition`: the translation column of the world
matrix. -/
def PerspectiveCam.worldPosition (cam : PerspectiveCam) : Vec3 :=
  ⟨cam.matrixWorld.e12, cam.matrixWorld.e13, cam.matrixWorld.e14⟩

/-- Modelled from the spec: `FrustumCorners.setFromCamera(camera,
overrideFar)` computes the eight camera-local corners from the camera's
projection, using `overrideFar` in place of the camera's far plane, with the
winding of the three.js CSM helper ((+,+), (+,-), (-,-), (-,+)). -/
def FrustumCorners.setFromCamera (cam : PerspectiveCam) (overrideFar : ℝ) :
    FrustumCorners :=
  let nearH := cam.tanHalfFovY * cam.near
  let nearW := nearH * cam.aspect
  let farH := cam.tanHalfFovY * overrideFar
  let farW := farH * cam.aspect
  ⟨⟨nearW, nearH, -cam.near⟩, ⟨nearW, -nearH, -cam.near⟩,
   ⟨-nearW, -nearH, -cam.near⟩, ⟨-nearW, nearH, -cam.near⟩,
   ⟨farW, farH, -overrideFar⟩, ⟨farW, -farH, -overrideFar⟩,
   ⟨-farW, -farH, -overrideFar⟩, ⟨-farW, farH, -overrideFar⟩⟩

/-- Linear interpolation of corner points, used by `FrustumCorners.split`. -/
def lerpCorner (a b : Vec3) (t : ℝ) : Vec3 :=
  ⟨a.x + (b.x - a.x) * t, a.y + (b.y - a.y) * t, a.z + (b.z - a.z) * t⟩

/-- Modelled from the spec: `FrustumCorners.split(splits)` produces one
sub-frustum per split distance by interpolating between the near and far
corner sets with parameter `(d - near) / (far - near)`, where `near` and
`far` are the frustum's own plane depths; sub-frustum `k` spans from the
previous split (the near plane for `k = 0`) to split `k`. -/
def FrustumCorners.split (fc : FrustumCorners) (splits : List ℝ) :
    List FrustumCorners :=
  let near := -fc.n0.z
  let far := -fc.f0.z
  (List.range splits.length).map fun k =>
    let t0 := if k = 0 then 0 else (splits.getD (k - 1) 0 - near) / (far - near)
    let t1 := (splits.getD k 0 - near) / (far - near)
    ⟨lerpCorner fc.n0 fc.f0 t0, lerpCorner fc.n1 fc.f1 t0,
     lerpCorner fc.n2 fc.f2 t0, lerpCorner fc.n3 fc.f3 t0,
     lerpCorner fc.n0 fc.f0 t1, lerpCorner fc.n1 fc.f1 t1,
     lerpCorner fc.n2 fc.f2 t1, lerpCorner fc.n3 fc.f3 t1⟩

/-- `FrustumCorners.applyMatrix4`: transform all eight corners. -/
def FrustumCorners.applyMatrix4 (fc : FrustumCorners) (m : Mat4) :
    FrustumCorners :=
  ⟨fc.n0.applyMatrix4 m, fc.n1.applyMatrix4 m, fc.n2.applyMatrix4 m,
   fc.n3.applyMatrix4 m, fc.f0.applyMatrix4 m, fc.f1.applyMatrix4 m,
   fc.f2.applyMatrix4 m, fc.f3.applyMatrix4 m⟩

/-- The axis-aligned bounding box of the eight corners of a frustum, as the
`makeEmpty()` plus eight `expandByPoint` calls of the source compute it. -/
def boxOfFrustum (fc : FrustumCorners) : Box3 :=
  ((((((((Box3.ofPoint fc.n0).expandByPoint fc.f0).expandByPoint
    fc.n1).expandByPoint fc.f1).expandByPoint fc.n2).expandByPoint
    fc.f2).expandByPoint fc.n3).expandByPoint fc.f3)

/-- Modelled from the spec: the reference ellipsoid of
`@takram/three-geospatial` (not under src/), reduced to its three radii. -/
structure EllipsoidM where
  rx : ℝ
  ry : ℝ
  rz : ℝ

/-- Modelled from the spec: `Ellipsoid.WGS84`. -/
def EllipsoidM.wgs84 : EllipsoidM := ⟨6378137, 6378137, 6356752.3142451793⟩

/-- Modelled from the spec: `Ellipsoid.getSurfaceNormal(p)` is the normalized
geodetic surface normal `normalize(p.x/rx², p.y/ry², p.z/rz²)`. -/
def EllipsoidM.getSurfaceNormal (e : EllipsoidM) (p : Vec3) : Vec3 :=
  Vec3.normalize ⟨p.x / (e.rx * e.rx), p.y / (e.ry * e.ry), p.z / (e.rz * e.rz)⟩

/-- One `Cascade` record of the source.  The `oid` field is not in the
source: it models JavaScript object identity (each `{...}` literal allocated
by the `cascadeCount` setter is a distinct object), which claims about
identity-stable resizing are about. -/
structure Cascade where
  oid : ℕ
  interval : Vec2
  matrix : Mat4
  inverseMatrix : Mat4
  projectionMatrix : Mat4
  inverseProjectionMatrix : Mat4
  viewMatrix : Mat4
  inverseViewMatrix : Mat4

/-- The cascade object allocated by the `cascadeCount` setter:
`new Vector2()` is the zero vector and `new Matrix4()` is the identity. -/
def freshCascade (oid : ℕ) : Cascade :=
  ⟨oid, ⟨0, 0⟩, Mat4.identity, Mat4.identity, Mat4.identity, Mat4.identity,
   Mat4.identity, Mat4.identity⟩

instance : Inhabited Cascade := ⟨freshCascade 0⟩

/-- The mutable state of the `CascadedShadows` class.  `nextOid` is the
object-identity allocation counter backing `Cascade.oid`. -/
structure CascadedShadows where
  cascades : List Cascade
  cascadeSize : ℝ
  far : ℝ
  mode : FrustumSplitMode
  lambda : ℝ
  margin : ℝ
  fade : Bool
  frusta : List FrustumCorners
  splits : List ℝ
  nextOid : ℕ

/-- The `cascadeCount` getter: the length of the cascade array. -/
def cascadeCount (st : CascadedShadows) : ℕ := st.cascades.length

/-- The `cascadeCount` setter: when the value changes, fill missing indices
below `value` with freshly allocated cascades (`??=` leaves existing entries
untouched) and truncate the array to length `value`. -/
def setCascadeCount (st : CascadedShadows) (value : ℕ) : CascadedShadows :=
  if value = st.cascades.length then st
  else
    { st with
      cascades :=
        (st.cascades ++ (List.range (value - st.cascades.length)).map
          fun k => freshCascade (st.nextOid + k)).take value,
      nextOid := st.nextOid + (value - st.cascades.length) }

/-- Plain field assignment `shadows.cascadeSize = value`. -/
def setCascadeSize (st : CascadedShadows) (value : ℝ) : CascadedShadows :=
  { st with cascadeSize := value }

/-- Plain field assignment `shadows.far = value`. -/
def setFar (st : CascadedShadows) (value : ℝ) : CascadedShadows :=
  { st with far := value }

/-- Plain field assignment `shadows.mode = value`. -/
def setMode (st : CascadedShadows) (value : FrustumSplitMode) :
    CascadedShadows :=
  { st with mode := value }

/-- Plain field assignment `shadows.lambda = value`. -/
def setLambda (st : CascadedShadows) (value : ℝ) : CascadedShadows :=
  { st with lambda := value }

/-- Plain field assignment `shadows.margin = value`. -/
def setMargin (st : CascadedShadows) (value : ℝ) : CascadedShadows :=
  { st with margin := value }

/-- Plain field assignment `shadows.fade = value`. -/
def setFade (st : CascadedShadows) (value : Bool) : CascadedShadows :=
  { st with fade := value }

/-- Index-aware map, modelling the `for (let i = 0; ...)` loops that write
`cascades[i]` using data indexed by `i`. -/
def mapWithIdx (f : ℕ → α → β) : ℕ → List α → List β
  | _, [] => []
  | n, a :: as => f n a :: mapWithIdx f (n + 1) as

/-- `CascadedShadows.updateIntervals(camera)`: recompute the split distances
and the per-cascade sub-frusta, and set each cascade's interval to
`(splits[i - 1] ?? 0, splits[i] ?? 0)` (for `i = 0`, `splits[-1]` is
`undefined`, so the interval starts at 0). -/
def updateIntervals (st : CascadedShadows) (cam : PerspectiveCam) :
    CascadedShadows :=
  let far := Min.min st.far cam.far
  let splits := splitFrustum st.mode st.cascades.length cam.near far st.lambda
  let frusta := (FrustumCorners.setFromCamera cam far).split splits
  { st with
    splits := splits
    frusta := frusta
    cascades := mapWithIdx
      (fun i c =>
        { c with
          interval :=
            ⟨if i = 0 then 0 else splits.getD (i - 1) 0, splits.getD i 0⟩ })
      0 st.cascades }

/-- `CascadedShadows.getFrustumRadius(camera, frustum)`: half of the larger
of the far-face diagonal and the whole-frustum diagonal, the diagonal being
first inflated by the fade width when fading is enabled. -/
def getFrustumRadius (st : CascadedShadows) (cam : PerspectiveCam)
    (frustum : FrustumCorners) : ℝ :=
  let diagonalLength :=
    Max.max (frustum.f0.distanceTo frustum.f2) (frustum.f0.distanceTo frustum.n2)
  let diagonalLength :=
    if st.fade then
      let near := cam.near
      let far := Min.min st.far cam.far
      let distance := frustum.f0.z / (far - near)
      diagonalLength + 0.25 * distance ^ 2 * (far - near)
    else diagonalLength
  diagonalLength * 0.5

/-- The error carried by the model of a tiny-invariant `invariant(...)`
failure. -/
def invariantMessage : String := "Invariant failed"

/-- The loop body of `updateProjectionMatrix`, applied once the length
invariant has been checked. -/
def updateProjectionCore (st : CascadedShadows) (cam : PerspectiveCam) :
    CascadedShadows :=
  { st with
    cascades := mapWithIdx
      (fun i c =>
        let radius := getFrustumRadius st cam (st.frusta.getD i default)
        { c with
          projectionMatrix :=
            Mat4.makeOrthographic (-radius) radius radius (-radius)
              (-st.margin) (radius * 2 + st.margin) })
      0 st.cascades }

/-- `CascadedShadows.updateProjectionMatrix(camera)`: assert
`frusta.length === cascades.length`, then fit a symmetric orthographic
projection to each sub-frustum. -/
def updateProjectionMatrix (st : CascadedShadows) (cam : PerspectiveCam) :
    Except String CascadedShadows :=
  if st.frusta.length = st.cascades.length then
    Except.ok (updateProjectionCore st cam)
  else Except.error invariantMessage

/-- `Object3D.DEFAULT_UP` of three.js: `(0, 1, 0)`. -/
def defaultUp : Vec3 := ⟨0, 1, 0⟩

/-- The light orientation matrix of `updateInverseViewMatrix`:
`lookAt(origin, -sunDirection, DEFAULT_UP)` written into an identity-shaped
scratch matrix (the scratch's non-rotation entries are never written and stay
at their identity values). -/
def lightOrientationMatrix (sunDirection : Vec3) : Mat4 :=
  Mat4.lookAtModify Mat4.identity Vec3.zero (sunDirection.multiplyScalar (-1))
    defaultUp

/-- The camera-to-light-space matrix of `updateInverseViewMatrix`:
`lightOrientationMatrix⁻¹ * camera.matrixWorld`. -/
def cameraToLightMatrix (cam : PerspectiveCam) (sunDirection : Vec3) : Mat4 :=
  ((lightOrientationMatrix sunDirection).invert).mul cam.matrixWorld

/-- The light distance heuristic of `updateInverseViewMatrix`:
`lerp(1e6, 1e3, zenithAngle)` with `zenithAngle` the raw dot product of the
sun direction and the ellipsoid surface normal at the camera position. -/
def lightDistance (cam : PerspectiveCam) (sunDirection : Vec3)
    (ellipsoid : EllipsoidM) : ℝ :=
  lerp 1e6 1e3
    (sunDirection.dot (ellipsoid.getSurfaceNormal cam.worldPosition))

/-- The light-space target computed for one cascade inside the loop of
`updateInverseViewMatrix`: the center of the bounding box of the frustum
corners transformed into light space, with z replaced by the box's max z
plus the margin, and x/y snapped to the cascade's own texel grid. -/
def lightSpaceTarget (margin cascadeSize : ℝ) (camToLight : Mat4)
    (frustum : FrustumCorners) (projectionMatrix : Mat4) : Vec3 :=
  let fr := frustum.applyMatrix4 camToLight
  let bbox := boxOfFrustum fr
  let center0 := bbox.getCenter
  let center1 : Vec3 := ⟨center0.x, center0.y, bbox.max.z + margin⟩
  let tuple := extractOrthographicTuple projectionMatrix
  let texelWidth := (tuple.2.1 - tuple.1) / cascadeSize
  let texelHeight := (tuple.2.2.1 - tuple.2.2.2) / cascadeSize
  snapCenter center1 texelWidth texelHeight

/-- The inverse view matrix written into one cascade by the loop of
`updateInverseViewMatrix`: the snapped target is taken back to world space,
the light is placed at `sunDirection * distance + center`, and
`inverseViewMatrix.lookAt(center, position, DEFAULT_UP).setPosition(position)`
is applied. -/
def cascadeIVM (margin cascadeSize : ℝ) (camToLight lightOrient : Mat4)
    (sunDirection : Vec3) (distance : ℝ) (frustum : FrustumCorners)
    (c : Cascade) : Mat4 :=
  let center :=
    (lightSpaceTarget margin cascadeSize camToLight frustum
      c.projectionMatrix).applyMatrix4 lightOrient
  let position := (sunDirection.multiplyScalar distance).add center
  (c.inverseViewMatrix.lookAtModify center position defaultUp).setPosition
    position

/-- The loop of `updateInverseViewMatrix`, applied once the length invariant
has been checked. -/
def updateIVMCore (st : CascadedShadows) (cam : PerspectiveCam)
    (sunDirection : Vec3) (ellipsoid : EllipsoidM) : CascadedShadows :=
  let camToLight := cameraToLightMatrix cam sunDirection
  let lightOrient := lightOrientationMatrix sunDirection
  let distance := lightDistance cam sunDirection ellipsoid
  { st with
    cascades := mapWithIdx
      (fun i c =>
        { c with
          inverseViewMatrix :=
            cascadeIVM st.margin st.cascadeSize camToLight lightOrient
              sunDirection distance (st.frusta.getD i default) c })
      0 st.cascades }

/-- `CascadedShadows.updateInverseViewMatrix(camera, sunDirection,
ellipsoid)`: assert `frusta.length === cascades.length`, then place the
light for each cascade. -/
def updateInverseViewMatrix (st : CascadedShadows) (cam : PerspectiveCam)
    (sunDirection : Vec3) (ellipsoid : EllipsoidM) :
    Except String CascadedShadows :=
  if st.frusta.length = st.cascades.length then
    Except.ok (updateIVMCore st cam sunDirection ellipsoid)
  else Except.error invariantMessage

/-- The final loop of `update`: derive the inverse projection, the view
matrix and the two combined matrices of every cascade. -/
def updateDerived (st : CascadedShadows) : CascadedShadows :=
  { st with
    cascades := st.cascades.map fun c =>
      let invProj := c.projectionMatrix.invert
      let view := c.inverseViewMatrix.invert
      { c with
        inverseProjectionMatrix := invProj
        viewMatrix := view
        matrix := c.projectionMatrix.mul view
        inverseMatrix := c.inverseViewMatrix.mul invProj } }

/-- `CascadedShadows.update(camera, sunDirection, ellipsoid)`: the full
per-frame pipeline. -/
def update (st : CascadedShadows) (cam : PerspectiveCam)
    (sunDirection : Vec3) (ellipsoid : EllipsoidM) :
    Except String CascadedShadows :=
  let st1 := updateIntervals st cam
  match updateProjectionMatrix st1 cam with
  | Except.error e => Except.error e
  | Except.ok st2 =>
    match updateInverseViewMatrix st2 cam sunDirection ellipsoid with
    | Except.error e => Except.error e
    | Except.ok st3 => Except.ok (updateDerived st3)

/-- The state `update` produces when no invariant fails (which, as proved
below, is always). -/
def updateD (st : CascadedShadows) (cam : PerspectiveCam)
    (sunDirection : Vec3) (ellipsoid : EllipsoidM) : CascadedShadows :=
  updateDerived
    (updateIVMCore (updateProjectionCore (updateIntervals st cam) cam) cam
      sunDirection ellipsoid)

/-- The part of the `CloudsShadowMaterial` state the cascade-count claims
are about.  `cascadeCountDefine` models `defines.CASCADE_COUNT`: `none`
stands for an absent define, whose numeric coercion is `NaN` and therefore
unequal to every number. -/
structure CloudsShadowMaterial where
  cascadeCountDefine : Option ℕ
  needsUpdate : Bool

/-- The `cascadeCount` setter of `CloudsShadowMaterial`: compares the new
value with `+defines.CASCADE_COUNT` and, only when they differ, rewrites the
define and sets `needsUpdate`. -/
def CloudsShadowMaterial.setCascadeCount (m : CloudsShadowMaterial)
    (value : ℕ) : CloudsShadowMaterial :=
  match m.cascadeCountDefine with
  | some c => if value = c then m else ⟨some value, true⟩
  | none => ⟨some value, true⟩

/-! ### List helper lemmas -/

theorem mapWithIdx_length (f : ℕ → α → β) (n : ℕ) (l : List α) :
    (mapWithIdx f n l).length = l.length := by
  induction l generalizing n with
  | nil => rfl
  | cons a as ih => simp [mapWithIdx, ih]

theorem mapWithIdx_getD (f : ℕ → α → β) (n : ℕ) (l : List α) (i : ℕ) (d : α)
    (d2 : β) (h : i < l.length) :
    (mapWithIdx f n l).getD i d2 = f (n + i) (l.getD i d) := by
  induction l generalizing n i with
  | nil => simp at h
  | cons a as ih =>
    cases i with
    | zero => simp [mapWithIdx]
    | succ i =>
      simp only [mapWithIdx, List.getD_cons_succ]
      rw [ih (n + 1) i (by simpa using Nat.lt_of_succ_lt_succ h)]
      congr 1
      omega

theorem getD_map_of_lt (f : α → β) (l : List α) (i : ℕ) (d : β) (d' : α)
    (h : i < l.length) : (l.map f).getD i d = f (l.getD i d') := by
  rw [List.getD_eq_getElem _ _ (by simpa using h), List.getElem_map,
    List.getD_eq_getElem _ _ h]

/-! ### Split helper lemmas -/

theorem splitFrustum_length (mode : FrustumSplitMode) (count : ℕ)
    (near far lambda : ℝ) :
    (splitFrustum mode count near far lambda).length = count := by
  simp [splitFrustum]

theorem splitFrustum_getD (mode : FrustumSplitMode) (count : ℕ)
    (near far lambda : ℝ) (i : ℕ) (h : i < count) :
    (splitFrustum mode count near far lambda).getD i 0 =
      splitValue mode count near far lambda i := by
  rw [splitFrustum,
    List.getD_eq_getElem _ _ (by simpa using h)]
  simp

theorem uniformSplit_lt (count : ℕ) (near far : ℝ) (hc : 0 < count)
    (hnf : near < far) {i j : ℕ} (hij : i < j) :
    uniformSplit count near far i < uniformSplit count near far j := by
  unfold uniformSplit
  have hcount : (0 : ℝ) < count := by exact_mod_cast hc
  have hij2 : ((i : ℝ) + 1) < ((j : ℝ) + 1) := by
    have : (i : ℝ) < j := by exact_mod_cast hij
    linarith
  have h1 : (far - near) * ((i : ℝ) + 1) < (far - near) * ((j : ℝ) + 1) :=
    mul_lt_mul_of_pos_left hij2 (sub_pos.mpr hnf)
  have h2 := (div_lt_div_iff_of_pos_right hcount).mpr h1
  linarith

theorem logarithmicSplit_lt (count : ℕ) (near far : ℝ) (hc : 0 < count)
    (hnear : 0 < near) (hnf : near < far) {i j : ℕ} (hij : i < j) :
    logarithmicSplit count near far i < logarithmicSplit count near far j := by
  unfold logarithmicSplit
  have hcount : (0 : ℝ) < count := by exact_mod_cast hc
  have hb : 1 < far / near := (one_lt_div hnear).mpr hnf
  have hij2 : ((i : ℝ) + 1) / count < ((j : ℝ) + 1) / count := by
    have : (i : ℝ) < j := by exact_mod_cast hij
    apply (div_lt_div_iff_of_pos_right hcount).mpr
    linarith
  exact mul_lt_mul_of_pos_left
    ((Real.rpow_lt_rpow_left_iff hb).mpr hij2) hnear

theorem uniformSplit_mem (count : ℕ) (near far : ℝ) (hc : 0 < count)
    (hnf : near < far) {i : ℕ} (hi : i < count) :
    near < uniformSplit count near far i ∧ uniformSplit count near far i ≤ far := by
  unfold uniformSplit
  have hcount : (0 : ℝ) < count := by exact_mod_cast hc
  have hi2 : ((i : ℝ) + 1) ≤ count := by exact_mod_cast hi
  have hpos : 0 < ((i : ℝ) + 1) := by positivity
  constructor
  · have h1 : 0 < (far - near) * ((i : ℝ) + 1) / count :=
      div_pos (mul_pos (sub_pos.mpr hnf) hpos) hcount
    linarith
  · have h1 : (far - near) * ((i : ℝ) + 1) / count ≤ far - near := by
      rw [div_le_iff₀ hcount]
      have := mul_le_mul_of_nonneg_left hi2 (sub_pos.mpr hnf).le
      linarith [this]
    linarith

theorem logarithmicSplit_mem (count : ℕ) (near far : ℝ) (hc : 0 < count)
    (hnear : 0 < near) (hnf : near < far) {i : ℕ} (hi : i < count) :
    near < logarithmicSplit count near far i ∧
      logarithmicSplit count near far i ≤ far := by
  unfold logarithmicSplit
  have hcount : (0 : ℝ) < count := by exact_mod_cast hc
  have hb : 1 < far / near := (one_lt_div hnear).mpr hnf
  have htpos : 0 < ((i : ℝ) + 1) / count := by positivity
  have htle : ((i : ℝ) + 1) / count ≤ 1 := by
    rw [div_le_one hcount]
    exact_mod_cast hi
  constructor
  · have h1 : (far / near) ^ (0 : ℝ) < (far / near) ^ (((i : ℝ) + 1) / count) :=
      (Real.rpow_lt_rpow_left_iff hb).mpr htpos
    rw [Real.rpow_zero] at h1
    calc near = near * 1 := by ring
    _ < near * (far / near) ^ (((i : ℝ) + 1) / count) :=
      mul_lt_mul_of_pos_left h1 hnear
  · have h1 : (far / near) ^ (((i : ℝ) + 1) / count) ≤ (far / near) ^ (1 : ℝ) :=
      (Real.rpow_le_rpow_left_iff hb).mpr htle
    rw [Real.rpow_one] at h1
    have h2 := mul_le_mul_of_nonneg_left h1 hnear.le
    rwa [mul_div_cancel₀ far hnear.ne'] at h2

theorem uniformSplit_last (count : ℕ) (near far : ℝ) (hc : 0 < count) :
    uniformSplit count near far (count - 1) = far := by
  unfold uniformSplit
  have hcount : (count : ℝ) ≠ 0 := by positivity
  have h1 : ((count - 1 : ℕ) : ℝ) + 1 = (count : ℝ) := by
    have := Nat.sub_add_cancel hc
    exact_mod_cast congrArg (Nat.cast (R := ℝ)) this
  rw [h1, mul_div_assoc, div_self hcount]
  ring

theorem logarithmicSplit_last (count : ℕ) (near far : ℝ) (hc : 0 < count)
    (hnear : 0 < near) : logarithmicSplit count near far (count - 1) = far := by
  unfold logarithmicSplit
  have hcount : (count : ℝ) ≠ 0 := by positivity
  have h1 : ((count - 1 : ℕ) : ℝ) + 1 = (count : ℝ) := by
    have := Nat.sub_add_cancel hc
    exact_mod_cast congrArg (Nat.cast (R := ℝ)) this
  rw [h1, div_self hcount, Real.rpow_one, mul_div_cancel₀ far hnear.ne']

theorem comboBlend_lt (lambda a1 a2 b1 b2 : ℝ) (hl0 : 0 ≤ lambda)
    (hl1 : lambda ≤ 1) (ha : a1 < a2) (hb : b1 < b2) :
    lambda * a1 + (1 - lambda) * b1 < lambda * a2 + (1 - lambda) * b2 := by
  rcases le_or_lt lambda (1 / 2) with h | h
  · nlinarith
  · nlinarith

theorem comboBlend_mem (lambda a b near far : ℝ) (hl0 : 0 ≤ lambda)
    (hl1 : lambda ≤ 1) (ha1 : near < a) (ha2 : a ≤ far) (hb1 : near < b)
    (hb2 : b ≤ far) :
    near < lambda * a + (1 - lambda) * b ∧ lambda * a + (1 - lambda) * b ≤ far := by
  constructor
  · rcases le_or_lt lambda (1 / 2) with h | h
    · nlinarith
    · nlinarith
  · nlinarith

theorem splitValue_lt (mode : FrustumSplitMode) (count : ℕ)
    (near far lambda : ℝ) (hc : 0 < count) (hnear : 0 < near)
    (hnf : near < far) (hl0 : 0 ≤ lambda) (hl1 : lambda ≤ 1) {i j : ℕ}
    (hij : i < j) :
    splitValue mode count near far lambda i <
      splitValue mode count near far lambda j := by
  cases mode with
  | uniform => exact uniformSplit_lt count near far hc hnf hij
  | logarithmic => exact logarithmicSplit_lt count near far hc hnear hnf hij
  | practical =>
    exact comboBlend_lt lambda _ _ _ _ hl0 hl1
      (logarithmicSplit_lt count near far hc hnear hnf hij)
      (uniformSplit_lt count near far hc hnf hij)

theorem splitValue_mem (mode : FrustumSplitMode) (count : ℕ)
    (near far lambda : ℝ) (hc : 0 < count) (hnear : 0 < near)
    (hnf : near < far) (hl0 : 0 ≤ lambda) (hl1 : lambda ≤ 1) {i : ℕ}
    (hi : i < count) :
    near < splitValue mode count near far lambda i ∧
      splitValue mode count near far lambda i ≤ far := by
  cases mode with
  | uniform => exact uniformSplit_mem count near far hc hnf hi
  | logarithmic => exact logarithmicSplit_mem count near far hc hnear hnf hi
  | practical =>
    obtain ⟨hL1, hL2⟩ := logarithmicSplit_mem count near far hc hnear hnf hi
    obtain ⟨hU1, hU2⟩ := uniformSplit_mem count near far hc hnf hi
    exact comboBlend_mem lambda _ _ near far hl0 hl1 hL1 hL2 hU1 hU2

theorem splitValue_last (mode : FrustumSplitMode) (count : ℕ)
    (near far lambda : ℝ) (hc : 0 < count) (hnear : 0 < near) :
    splitValue mode count near far lambda (count - 1) = far := by
  cases mode with
  | uniform => exact uniformSplit_last count near far hc
  | logarithmic => exact logarithmicSplit_last count near far hc hnear
  | practical =>
    rw [splitValue, uniformSplit_last count near far hc,
      logarithmicSplit_last count near far hc hnear]
    ring

/-! ### Pipeline characterization lemmas -/

theorem split_length (fc : FrustumCorners) (splits : List ℝ) :
    (fc.split splits).length = splits.length := by
  simp [FrustumCorners.split]

theorem updateIntervals_splits (st : CascadedShadows) (cam : PerspectiveCam) :
    (updateIntervals st cam).splits =
      splitFrustum st.mode st.cascades.length cam.near (Min.min st.far cam.far)
        st.lambda := rfl

theorem updateIntervals_frusta (st : CascadedShadows) (cam : PerspectiveCam) :
    (updateIntervals st cam).frusta =
      (FrustumCorners.setFromCamera cam (Min.min st.far cam.far)).split
        (splitFrustum st.mode st.cascades.length cam.near
          (Min.min st.far cam.far) st.lambda) := rfl

theorem updateIntervals_cascades_length (st : CascadedShadows)
    (cam : PerspectiveCam) :
    (updateIntervals st cam).cascades.length = st.cascades.length := by
  simp [updateIntervals, mapWithIdx_length]

theorem updateIntervals_frusta_length (st : CascadedShadows)
    (cam : PerspectiveCam) :
    (updateIntervals st cam).frusta.length = st.cascades.length := by
  rw [updateIntervals_frusta, split_length, splitFrustum_length]

theorem updateIntervals_cascades_getD (st : CascadedShadows)
    (cam : PerspectiveCam) (i : ℕ) (h : i < st.cascades.length) :
    (updateIntervals st cam).cascades.getD i default =
      { st.cascades.getD i default with
        interval :=
          ⟨if i = 0 then 0 else (updateIntervals st cam).splits.getD (i - 1) 0,
           (updateIntervals st cam).splits.getD i 0⟩ } := by
  conv_lhs => rw [updateIntervals]
  simp only
  rw [mapWithIdx_getD _ 0 _ i default default h]
  simp [updateIntervals_splits]

theorem updateProjectionCore_cascades_getD (st : CascadedShadows)
    (cam : PerspectiveCam) (i : ℕ) (h : i < st.cascades.length) :
    (updateProjectionCore st cam).cascades.getD i default =
      { st.cascades.getD i default with
        projectionMatrix :=
          Mat4.makeOrthographic
            (-(getFrustumRadius st cam (st.frusta.getD i default)))
            (getFrustumRadius st cam (st.frusta.getD i default))
            (getFrustumRadius st cam (st.frusta.getD i default))
            (-(getFrustumRadius st cam (st.frusta.getD i default)))
            (-st.margin)
            (getFrustumRadius st cam (st.frusta.getD i default) * 2 +
              st.margin) } := by
  conv_lhs => rw [updateProjectionCore]
  simp only
  rw [mapWithIdx_getD _ 0 _ i default default h]
  simp

theorem updateIVMCore_cascades_getD (st : CascadedShadows)
    (cam : PerspectiveCam) (sunDirection : Vec3) (ellipsoid : EllipsoidM)
    (i : ℕ) (h : i < st.cascades.length) :
    (updateIVMCore st cam sunDirection ellipsoid).cascades.getD i default =
      { st.cascades.getD i default with
        inverseViewMatrix :=
          cascadeIVM st.margin st.cascadeSize
            (cameraToLightMatrix cam sunDirection)
            (lightOrientationMatrix sunDirection) sunDirection
            (lightDistance cam sunDirection ellipsoid)
            (st.frusta.getD i default) (st.cascades.getD i default) } := by
  conv_lhs => rw [updateIVMCore]
  simp only
  rw [mapWithIdx_getD _ 0 _ i default default h]
  simp

theorem updateDerived_cascades_getD (st : CascadedShadows) (i : ℕ)
    (h : i < st.cascades.length) :
    (updateDerived st).cascades.getD i default =
      { st.cascades.getD i default with
        inverseProjectionMatrix :=
          ((st.cascades.getD i default).projectionMatrix).invert
        viewMatrix := ((st.cascades.getD i default).inverseViewMatrix).invert
        matrix :=
          ((st.cascades.getD i default).projectionMatrix).mul
            ((st.cascades.getD i default).inverseViewMatrix).invert
        inverseMatrix :=
          ((st.cascades.getD i default).inverseViewMatrix).mul
            ((st.cascades.getD i default).projectionMatrix).invert } := by
  conv_lhs => rw [updateDerived]
  simp only
  rw [getD_map_of_lt _ _ i default default h]

theorem updateProjectionCore_cascades_length (st : CascadedShadows)
    (cam : PerspectiveCam) :
    (updateProjectionCore st cam).cascades.length = st.cascades.length := by
  simp [updateProjectionCore, mapWithIdx_length]

theorem updateIVMCore_cascades_length (st : CascadedShadows)
    (cam : PerspectiveCam) (sunDirection : Vec3) (ellipsoid : EllipsoidM) :
    (updateIVMCore st cam sunDirection ellipsoid).cascades.length =
      st.cascades.length := by
  simp [updateIVMCore, mapWithIdx_length]

theorem updateD_cascades_length (st : CascadedShadows) (cam : PerspectiveCam)
    (sunDirection : Vec3) (ellipsoid : EllipsoidM) :
    (updateD st cam sunDirection ellipsoid).cascades.length =
      st.cascades.length := by
  simp [updateD, updateDerived, updateIVMCore_cascades_length,
    updateProjectionCore_cascades_length, updateIntervals_cascades_length]

theorem update_eq_ok (st : CascadedShadows) (cam : PerspectiveCam)
    (sunDirection : Vec3) (ellipsoid : EllipsoidM) :
    update st cam sunDirection ellipsoid =
      Except.ok (updateD st cam sunDirection ellipsoid) := by
  unfold update updateProjectionMatrix updateInverseViewMatrix updateD
  simp only []
  have h1 : (updateIntervals st cam).frusta.length =
      (updateIntervals st cam).cascades.length := by
    rw [updateIntervals_frusta_length, updateIntervals_cascades_length]
  rw [if_pos h1]
  have h2 : (updateProjectionCore (updateIntervals st cam) cam).frusta.length =
      (updateProjectionCore (updateIntervals st cam) cam).cascades.length := by
    have hfr : (updateProjectionCore (updateIntervals st cam) cam).frusta =
        (updateIntervals st cam).frusta := rfl
    rw [hfr, updateProjectionCore_cascades_length, h1]
  simp only []
  rw [if_pos h2]

/-- The radius `updateProjectionMatrix` fits to cascade `i` during `update`:
`getFrustumRadius` applied to the `i`-th sub-frustum just computed by
`updateIntervals`. -/
def cascadeRadius (st : CascadedShadows) (cam : PerspectiveCam) (i : ℕ) : ℝ :=
  getFrustumRadius st cam ((updateIntervals st cam).frusta.getD i default)

/-- The orthographic projection `updateProjectionMatrix` writes into cascade
`i` during `update`. -/
def cascadeProjection (st : CascadedShadows) (cam : PerspectiveCam) (i : ℕ) :
    Mat4 :=
  Mat4.makeOrthographic (-(cascadeRadius st cam i)) (cascadeRadius st cam i)
    (cascadeRadius st cam i) (-(cascadeRadius st cam i)) (-st.margin)
    (cascadeRadius st cam i * 2 + st.margin)

/-- The state of cascade `i` after `updateIntervals` and
`updateProjectionMatrix` have run inside `update`, before
`updateInverseViewMatrix` reads it. -/
def cascadeAfterProjection (st : CascadedShadows) (cam : PerspectiveCam)
    (i : ℕ) : Cascade :=
  { st.cascades.getD i default with
    interval :=
      ⟨if i = 0 then 0 else (updateIntervals st cam).splits.getD (i - 1) 0,
       (updateIntervals st cam).splits.getD i 0⟩
    projectionMatrix := cascadeProjection st cam i }

theorem updateD_cascades_getD (st : CascadedShadows) (cam : PerspectiveCam)
    (sunDirection : Vec3) (ellipsoid : EllipsoidM) (i : ℕ)
    (h : i < st.cascades.length) :
    (updateD st cam sunDirection ellipsoid).cascades.getD i default =
      { cascadeAfterProjection st cam i with
        inverseViewMatrix :=
          cascadeIVM st.margin st.cascadeSize
            (cameraToLightMatrix cam sunDirection)
            (lightOrientationMatrix sunDirection) sunDirection
            (lightDistance cam sunDirection ellipsoid)
            ((updateIntervals st cam).frusta.getD i default)
            (cascadeAfterProjection st cam i)
        inverseProjectionMatrix := (cascadeProjection st cam i).invert
        viewMatrix :=
          (cascadeIVM st.margin st.cascadeSize
            (cameraToLightMatrix cam sunDirection)
            (lightOrientationMatrix sunDirection) sunDirection
            (lightDistance cam sunDirection ellipsoid)
            ((updateIntervals st cam).frusta.getD i default)
            (cascadeAfterProjection st cam i)).invert
        matrix :=
          (cascadeProjection st cam i).mul
            (cascadeIVM st.margin st.cascadeSize
              (cameraToLightMatrix cam sunDirection)
              (lightOrientationMatrix sunDirection) sunDirection
              (lightDistance cam sunDirection ellipsoid)
              ((updateIntervals st cam).frusta.getD i default)
              (cascadeAfterProjection st cam i)).invert
        inverseMatrix :=
          (cascadeIVM st.margin st.cascadeSize
            (cameraToLightMatrix cam sunDirection)
            (lightOrientationMatrix sunDirection) sunDirection
            (lightDistance cam sunDirection ellipsoid)
            ((updateIntervals st cam).frusta.getD i default)
            (cascadeAfterProjection st cam i)).mul
            (cascadeProjection st cam i).invert } := by
  have h1 : i < (updateIntervals st cam).cascades.length := by
    rw [updateIntervals_cascades_length]; exact h
  have h2 : i <
      (updateProjectionCore (updateIntervals st cam) cam).cascades.length := by
    rw [updateProjectionCore_cascades_length]; exact h1
  have h3 : i < (updateIVMCore
      (updateProjectionCore (updateIntervals st cam) cam) cam sunDirection
        ellipsoid).cascades.length := by
    rw [updateIVMCore_cascades_length]; exact h2
  unfold updateD
  rw [updateDerived_cascades_getD _ i h3,
    updateIVMCore_cascades_getD _ _ _ _ i h2,
    updateProjectionCore_cascades_getD _ _ i h1,
    updateIntervals_cascades_getD st cam i h]
  rfl

/-! ### Concrete inputs used by witnesses and counterexamples -/

/-- A concrete camera: `near = 1`, `far = 7`, unit projection slopes, world
transform a translation by `(1, 0, 0)`. -/
def camWitness : PerspectiveCam :=
  ⟨1, 7, 1, 1, Mat4.identity.setPosition ⟨1, 0, 0⟩⟩

/-- The unit sphere as reference ellipsoid. -/
def ellWitness : EllipsoidM := ⟨1, 1, 1⟩

/-- A sun direction pointing along +z. -/
def sunWitness : Vec3 := ⟨0, 0, 1⟩

/-- A concrete `CascadedShadows` state with a single cascade (and, as
initially constructed, empty `frusta`/`splits` scratch lists). -/
def stWitnessState : CascadedShadows :=
  ⟨[freshCascade 0], 14, 10000, .uniform, 1 / 2, 0, false, [], [], 1⟩

/-- A concrete `CascadedShadows` state with no cascades. -/
def stEmptyState : CascadedShadows :=
  ⟨[], 1024, 10000, .practical, 1 / 2, 0, true, [], [], 0⟩

/-- A concrete `CascadedShadows` state with four cascades. -/
def st4State : CascadedShadows :=
  ⟨[freshCascade 0, freshCascade 1, freshCascade 2, freshCascade 3], 1024,
   10000, .practical, 1 / 2, 0, true, [], [], 4⟩

/-! ### Claim C1 -/

/-- The amended contract of `splitFrustum`: exactly `count` split distances,
strictly increasing, each in the half-open interval `(near, far]` (the last
split equals `far`); the three mode formulas; for `count = 1` the single
split is `far`; and the uniform example `near = 1`, `far = 1000`,
`count = 4` yields `[250.75, 500.5, 750.25, 1000]`. -/
def SplitFrustumProp (mode : FrustumSplitMode) (count : ℕ)
    (near far lambda : ℝ) : Prop :=
  (splitFrustum mode count near far lambda).length = count ∧
  (∀ i, i + 1 < count →
    (splitFrustum mode count near far lambda).getD i 0 <
      (splitFrustum mode count near far lambda).getD (i + 1) 0) ∧
  (∀ i, i < count →
    near < (splitFrustum mode count near far lambda).getD i 0 ∧
      (splitFrustum mode count near far lambda).getD i 0 ≤ far) ∧
  (splitFrustum mode count near far lambda).getD (count - 1) 0 = far ∧
  (count = 1 → splitFrustum mode count near far lambda = [far]) ∧
  (∀ i, i < count →
    (splitFrustum .uniform count near far lambda).getD i 0 =
      near + (far - near) * ((i : ℝ) + 1) / count) ∧
  (∀ i, i < count →
    (splitFrustum .logarithmic count near far lambda).getD i 0 =
      near * (far / near) ^ (((i : ℝ) + 1) / (count : ℝ))) ∧
  (∀ i, i < count →
    (splitFrustum .practical count near far lambda).getD i 0 =
      lambda * (near * (far / near) ^ (((i : ℝ) + 1) / (count : ℝ))) +
        (1 - lambda) * (near + (far - near) * ((i : ℝ) + 1) / count)) ∧
  splitFrustum .uniform 4 1 1000 lambda = [250.75, 500.5, 750.25, 1000]

/-- C1 (amended): for every mode, cascade count at least 1, planes
`0 < near < far` and blend factor `lambda ∈ [0, 1]`, `splitFrustum` produces
exactly `count` strictly increasing split distances lying in `(near, far]`
(not in the open interval `(near, far)` claimed: the last split equals
`far`), following the per-mode formulas; for `count = 1` the single split is
`far`; and the uniform example for `near = 1`, `far = 1000`, `count = 4` is
`[250.75, 500.5, 750.25, 1000]` (not the claimed `[250, 500, 750, 1000]`). -/
theorem splitFrustum_correct (mode : FrustumSplitMode) (count : ℕ)
    (near far lambda : ℝ) (hc : 1 ≤ count) (hnear : 0 < near)
    (hnf : near < far) (hl0 : 0 ≤ lambda) (hl1 : lambda ≤ 1) :
    SplitFrustumProp mode count near far lambda := by
  have hc0 : 0 < count := hc
  refine ⟨splitFrustum_length mode count near far lambda, ?_, ?_, ?_, ?_,
    ?_, ?_, ?_, ?_⟩
  · intro i hi
    rw [splitFrustum_getD mode count near far lambda i (by omega),
      splitFrustum_getD mode count near far lambda (i + 1) hi]
    exact splitValue_lt mode count near far lambda hc0 hnear hnf hl0 hl1
      (Nat.lt_succ_self i)
  · intro i hi
    rw [splitFrustum_getD mode count near far lambda i hi]
    exact splitValue_mem mode count near far lambda hc0 hnear hnf hl0 hl1 hi
  · rw [splitFrustum_getD mode count near far lambda (count - 1) (by omega)]
    exact splitValue_last mode count near far lambda hc0 hnear
  · intro h1
    subst h1
    have h0 : splitFrustum mode 1 near far lambda =
        [splitValue mode 1 near far lambda 0] := by
      simp [splitFrustum, List.range_succ]
    rw [h0]
    have := splitValue_last mode 1 near far lambda (by norm_num) hnear
    simpa using this
  · intro i hi
    rw [splitFrustum_getD _ count near far lambda i hi]
    rfl
  · intro i hi
    rw [splitFrustum_getD _ count near far lambda i hi]
    rfl
  · intro i hi
    rw [splitFrustum_getD _ count near far lambda i hi]
    rfl
  · show (List.range 4).map (splitValue .uniform 4 1 1000 lambda) = _
    norm_num [List.range_succ, splitValue, uniformSplit]

/-- Witness for `splitFrustum_correct` at mode `practical`, `count = 4`,
`near = 1`, `far = 1000`, `lambda = 1/2`. -/
theorem splitFrustum_correct_witness :
    ((1 : ℕ) ≤ 4 ∧ (0 : ℝ) < 1 ∧ (1 : ℝ) < 1000 ∧ (0 : ℝ) ≤ 1 / 2 ∧
      (1 / 2 : ℝ) ≤ 1) ∧
    SplitFrustumProp .practical 4 1 1000 (1 / 2) :=
  ⟨by norm_num,
   splitFrustum_correct .practical 4 1 1000 (1 / 2) (by norm_num)
     (by norm_num) (by norm_num) (by norm_num) (by norm_num)⟩

/-- C1 counterexample: with `near = 1`, `far = 1000`, `count = 4`,
`mode = uniform`, the first split is `250.75`, not the claimed `250`, and
the splits do not all lie in the open interval `(near, far)`: the last one
equals `far = 1000`. -/
theorem splitFrustum_claim_counterexample :
    (splitFrustum .uniform 4 1 1000 (1 / 2)).getD 0 0 ≠ 250 ∧
    ¬(∀ s ∈ splitFrustum .uniform 4 1 1000 (1 / 2),
        s ∈ Set.Ioo (1 : ℝ) 1000) := by
  constructor
  · rw [splitFrustum_getD .uniform 4 1 1000 (1 / 2) 0 (by norm_num)]
    norm_num [splitValue, uniformSplit]
  · intro hall
    have hlen : (splitFrustum .uniform 4 1 1000 (1 / 2)).length = 4 :=
      splitFrustum_length .uniform 4 1 1000 (1 / 2)
    have hb : 3 < (splitFrustum .uniform 4 1 1000 (1 / 2)).length := by
      rw [hlen]; norm_num
    have h3 : (splitFrustum .uniform 4 1 1000 (1 / 2))[3] = 1000 := by
      rw [← List.getD_eq_getElem _ 0 hb,
        splitFrustum_getD .uniform 4 1 1000 (1 / 2) 3 (by norm_num)]
      norm_num [splitValue, uniformSplit]
    have hmem := List.getElem_mem hb
    have hin := hall _ hmem
    rw [h3] at hin
    exact absurd hin.2 (lt_irrefl 1000)

/-! ### Claim C4 -/

/-- C4: configuration setters compare the old and the new value.  For the
shader-material sink, setting `cascadeCount` to the current value leaves the
material (including `needsUpdate`) untouched, while a different value
rewrites the define and raises `needsUpdate`; for `CascadedShadows`, setting
`cascadeCount` to the current count is a no-op, and every other config
setter is a plain field write that leaves the whole state unchanged when the
value equals the current one (and never touches the cascades at all). -/
theorem configSetter_dirty_discipline :
    (∀ (m : CloudsShadowMaterial) (v : ℕ),
      (m.cascadeCountDefine = some v → m.setCascadeCount v = m) ∧
      (m.cascadeCountDefine ≠ some v →
        (m.setCascadeCount v).needsUpdate = true ∧
          (m.setCascadeCount v).cascadeCountDefine = some v)) ∧
    (∀ (st : CascadedShadows) (v : ℕ),
      v = st.cascades.length → setCascadeCount st v = st) ∧
    (∀ (st : CascadedShadows) (v : ℝ),
      (v = st.cascadeSize → setCascadeSize st v = st) ∧
        (setCascadeSize st v).cascades = st.cascades) ∧
    (∀ (st : CascadedShadows) (v : ℝ),
      (v = st.far → setFar st v = st) ∧ (setFar st v).cascades = st.cascades) ∧
    (∀ (st : CascadedShadows) (v : FrustumSplitMode),
      (v = st.mode → setMode st v = st) ∧
        (setMode st v).cascades = st.cascades) ∧
    (∀ (st : CascadedShadows) (v : ℝ),
      (v = st.lambda → setLambda st v = st) ∧
        (setLambda st v).cascades = st.cascades) ∧
    (∀ (st : CascadedShadows) (v : ℝ),
      (v = st.margin → setMargin st v = st) ∧
        (setMargin st v).cascades = st.cascades) ∧
    (∀ (st : CascadedShadows) (v : Bool),
      (v = st.fade → setFade st v = st) ∧
        (setFade st v).cascades = st.cascades) := by
  refine ⟨?_, ?_, ?_, ?_, ?_, ?_, ?_, ?_⟩
  · intro m v
    constructor
    · intro h
      simp [CloudsShadowMaterial.setCascadeCount, h]
    · intro h
      cases hd : m.cascadeCountDefine with
      | none => simp [CloudsShadowMaterial.setCascadeCount, hd]
      | some c =>
        have hvc : v ≠ c := by
          intro hvc
          exact h (by rw [hd, hvc])
        simp [CloudsShadowMaterial.setCascadeCount, hd, hvc]
  · intro st v h
    simp [setCascadeCount, h]
  · exact fun st v => ⟨fun h => by cases st; simp [setCascadeSize, h], rfl⟩
  · exact fun st v => ⟨fun h => by cases st; simp [setFar, h], rfl⟩
  · exact fun st v => ⟨fun h => by cases st; simp [setMode, h], rfl⟩
  · exact fun st v => ⟨fun h => by cases st; simp [setLambda, h], rfl⟩
  · exact fun st v => ⟨fun h => by cases st; simp [setMargin, h], rfl⟩
  · exact fun st v => ⟨fun h => by cases st; simp [setFade, h], rfl⟩

/-- Witness for `configSetter_dirty_discipline`: a material whose define is
4 keeps its state (and `needsUpdate = false`) when set to 4 and raises
`needsUpdate` when set to 2; a margin write of the current value is the
identity. -/
theorem configSetter_dirty_discipline_witness :
    (CloudsShadowMaterial.setCascadeCount ⟨some 4, false⟩ 4 =
      (⟨some 4, false⟩ : CloudsShadowMaterial)) ∧
    ((CloudsShadowMaterial.setCascadeCount ⟨some 4, false⟩ 2).needsUpdate =
      true) ∧
    setMargin stWitnessState stWitnessState.margin = stWitnessState := by
  refine ⟨?_, ?_, ?_⟩
  · exact (configSetter_dirty_discipline.1 ⟨some 4, false⟩ 4).1 rfl
  · exact ((configSetter_dirty_discipline.1 ⟨some 4, false⟩ 2).2
      (by simp)).1
  · exact ((configSetter_dirty_discipline.2.2.2.2.2.2.1 stWitnessState
      stWitnessState.margin).1) rfl

/-! ### Claim C5 -/

theorem setCascadeCount_length (st : CascadedShadows) (v : ℕ) :
    (setCascadeCount st v).cascades.length = v := by
  unfold setCascadeCount
  by_cases hv : v = st.cascades.length
  · rw [if_pos hv, hv]
  · rw [if_neg hv]
    simp only [List.length_take, List.length_append, List.length_map,
      List.length_range]
    omega

theorem setCascadeCount_getD_keep (st : CascadedShadows) (v i : ℕ)
    (h1 : i < st.cascades.length) (h2 : i < v) :
    (setCascadeCount st v).cascades.getD i default =
      st.cascades.getD i default := by
  unfold setCascadeCount
  by_cases hv : v = st.cascades.length
  · rw [if_pos hv]
  · rw [if_neg hv]
    simp only
    have hb : i < ((st.cascades ++
        (List.range (v - st.cascades.length)).map
          fun k => freshCascade (st.nextOid + k)).take v).length := by
      simp only [List.length_take, List.length_append, List.length_map,
        List.length_range]
      omega
    rw [List.getD_eq_getElem _ _ hb, List.getElem_take,
      List.getElem_append_left h1, List.getD_eq_getElem _ _ h1]

theorem setCascadeCount_getD_fresh (st : CascadedShadows) (v i : ℕ)
    (h1 : st.cascades.length ≤ i) (h2 : i < v) :
    (setCascadeCount st v).cascades.getD i default =
      freshCascade (st.nextOid + (i - st.cascades.length)) := by
  unfold setCascadeCount
  have hv : v ≠ st.cascades.length := by omega
  rw [if_neg hv]
  simp only
  have hb : i < ((st.cascades ++
      (List.range (v - st.cascades.length)).map
        fun k => freshCascade (st.nextOid + k)).take v).length := by
    simp only [List.length_take, List.length_append, List.length_map,
      List.length_range]
    omega
  rw [List.getD_eq_getElem _ _ hb, List.getElem_take,
    List.getElem_append_right h1]
  simp only [List.getElem_map, List.getElem_range]

/-- The amended resizing contract: `cascadeCount := v` yields exactly `v`
cascades, the objects at indices below both the old and new count are the
very same objects, the grown entries are freshly allocated with identity
matrices (the three.js `Matrix4` default, not zero matrices) and a zero
interval vector, and resizing 4 → 2 → 4 preserves the first two cascades. -/
def CascadeResizeProp (st : CascadedShadows) (v : ℕ) : Prop :=
  (setCascadeCount st v).cascades.length = v ∧
  (∀ i, i < st.cascades.length → i < v →
    (setCascadeCount st v).cascades.getD i default =
      st.cascades.getD i default) ∧
  (∀ i, st.cascades.length ≤ i → i < v →
    (setCascadeCount st v).cascades.getD i default =
      freshCascade (st.nextOid + (i - st.cascades.length))) ∧
  (∀ n, (freshCascade n).interval = (⟨0, 0⟩ : Vec2) ∧
    (freshCascade n).matrix = Mat4.identity ∧
    (freshCascade n).inverseMatrix = Mat4.identity ∧
    (freshCascade n).projectionMatrix = Mat4.identity ∧
    (freshCascade n).inverseProjectionMatrix = Mat4.identity ∧
    (freshCascade n).viewMatrix = Mat4.identity ∧
    (freshCascade n).inverseViewMatrix = Mat4.identity) ∧
  (st.cascades.length = 4 → ∀ i, i < 2 →
    (setCascadeCount (setCascadeCount st 2) 4).cascades.getD i default =
      st.cascades.getD i default)

/-- C5 (amended): resizing `cascadeCount` is identity-stable — surviving
indices keep the exact same cascade objects, shrinking truncates, and grown
entries are freshly allocated; but fresh entries carry identity matrices
(`new Matrix4()` of three.js), not zeroed ones, with only the interval
vector zero. -/
theorem cascadeResize_identity_stable (st : CascadedShadows) (v : ℕ) :
    CascadeResizeProp st v := by
  refine ⟨setCascadeCount_length st v, setCascadeCount_getD_keep st v,
    setCascadeCount_getD_fresh st v, fun n => ⟨rfl, rfl, rfl, rfl, rfl, rfl, rfl⟩,
    ?_⟩
  intro h4 i hi
  have l2 : (setCascadeCount st 2).cascades.length = 2 :=
    setCascadeCount_length st 2
  rw [setCascadeCount_getD_keep (setCascadeCount st 2) 4 i (by omega)
    (by omega)]
  exact setCascadeCount_getD_keep st 2 i (by omega) hi

/-- Witness for `cascadeResize_identity_stable`: a four-cascade state resized
4 → 2 → 4 keeps its first cascade object. -/
theorem cascadeResize_identity_stable_witness :
    st4State.cascades.length = 4 ∧ (0 : ℕ) < 2 ∧
    (setCascadeCount (setCascadeCount st4State 2) 4).cascades.getD 0 default =
      st4State.cascades.getD 0 default :=
  ⟨rfl, by norm_num,
   (cascadeResize_identity_stable st4State 4).2.2.2.2 rfl 0 (by norm_num)⟩

/-- C5 counterexample: growing from zero cascades allocates a cascade whose
`matrix` is the identity matrix, not a zero matrix as claimed. -/
theorem cascadeZeroInit_counterexample :
    ((setCascadeCount stEmptyState 1).cascades.getD 0 default).matrix ≠
      Mat4.zeroMat := by
  intro h
  have h0 : ((setCascadeCount stEmptyState 1).cascades.getD 0 default).matrix =
      Mat4.identity := by
    rw [setCascadeCount_getD_fresh stEmptyState 1 0 (by simp [stEmptyState])
      (by norm_num)]
    rfl
  rw [h0] at h
  have := congrArg Mat4.e0 h
  simp [Mat4.identity, Mat4.zeroMat] at this

/-! ### Claim C6 -/

/-- The radius formula as the claim words it: half of a diagonal that is the
maximum of the far-face diagonal (far corner 0 to far corner 2) and the
whole-frustum diagonal (far corner 0 to near corner 2), the diagonal being
first inflated by `0.25 * t^2 * (far - near)` with
`t = farCorner0.z / (far - near)` when fading is enabled. -/
def claimFrustumRadius (fade : Bool) (near far : ℝ)
    (frustum : FrustumCorners) : ℝ :=
  let diagonal :=
    Max.max (frustum.f0.distanceTo frustum.f2) (frustum.f0.distanceTo frustum.n2)
  let t := frustum.f0.z / (far - near)
  let inflated :=
    if fade then diagonal + 0.25 * t ^ 2 * (far - near) else diagonal
  inflated / 2

/-- C6: for every state, camera and sub-frustum, `getFrustumRadius` computes
exactly the claimed radius, with `near = camera.near` and
`far = min(this.far, camera.far)`. -/
theorem getFrustumRadius_correct (st : CascadedShadows)
    (cam : PerspectiveCam) (frustum : FrustumCorners) :
    getFrustumRadius st cam frustum =
      claimFrustumRadius st.fade cam.near (Min.min st.far cam.far) frustum := by
  unfold getFrustumRadius claimFrustumRadius
  cases st.fade <;> simp <;> ring_nf

/-! ### Claim C7 -/

/-- C7: texel snapping uses each cascade's own orthographic bounds.
`extractOrthographicTuple` recovers exactly the `left/right/top/bottom` the
projection was built from; snapping moves a coordinate to the nearest
multiple of the texel size (within half a texel); the target's x is snapped
with texel width `(right - left) / cascadeSize` extracted from the
cascade's own projection matrix, and the snapped z is the unsnapped z; and
with texel size 1 the raw target `(3.4, 7.6, z)` snaps to `(3, 8, z)`. -/
theorem texelSnapping_correct :
    (∀ left right top bottom near far : ℝ, left < right → bottom < top →
      extractOrthographicTuple
          (Mat4.makeOrthographic left right top bottom near far) =
        (left, right, top, bottom)) ∧
    (∀ x tw : ℝ, 0 < tw → |jsRound (x / tw) * tw - x| ≤ tw / 2) ∧
    (∀ (margin cascadeSize : ℝ) (camToLight projection : Mat4)
        (frustum : FrustumCorners),
      (lightSpaceTarget margin cascadeSize camToLight frustum projection).x =
        jsRound
            ((boxOfFrustum (frustum.applyMatrix4 camToLight)).getCenter.x /
              (((extractOrthographicTuple projection).2.1 -
                  (extractOrthographicTuple projection).1) / cascadeSize)) *
          (((extractOrthographicTuple projection).2.1 -
              (extractOrthographicTuple projection).1) / cascadeSize) ∧
      (lightSpaceTarget margin cascadeSize camToLight frustum projection).z =
        (boxOfFrustum (frustum.applyMatrix4 camToLight)).max.z + margin) ∧
    (∀ z : ℝ, snapCenter ⟨3.4, 7.6, z⟩ 1 1 = ⟨3, 8, z⟩) := by
  refine ⟨?_, ?_, ?_, ?_⟩
  · intro left right top bottom near far hlr hbt
    have h1 : right - left ≠ 0 := (sub_pos.mpr hlr).ne'
    have h2 : top - bottom ≠ 0 := (sub_pos.mpr hbt).ne'
    simp only [extractOrthographicTuple, Mat4.makeOrthographic,
      Prod.mk.injEq]
    refine ⟨?_, ?_, ?_, ?_⟩ <;> field_simp
  · intro x tw htw
    have h0 : |((⌊x / tw + 1 / 2⌋ : ℤ) : ℝ) - x / tw| ≤ 1 / 2 := by
      rw [abs_le]
      constructor
      · have := Int.lt_floor_add_one (x / tw + 1 / 2)
        push_cast at this ⊢
        linarith
      · have := Int.floor_le (x / tw + 1 / 2)
        push_cast at this ⊢
        linarith
    calc |jsRound (x / tw) * tw - x|
        = |(jsRound (x / tw) - x / tw) * tw| := by
          rw [sub_mul, div_mul_cancel₀ x htw.ne']
      _ = |jsRound (x / tw) - x / tw| * |tw| := abs_mul _ _
      _ = |jsRound (x / tw) - x / tw| * tw := by rw [abs_of_pos htw]
      _ ≤ 1 / 2 * tw := mul_le_mul_of_nonneg_right h0 htw.le
      _ = tw / 2 := by ring
  · intro margin cascadeSize camToLight projection frustum
    exact ⟨rfl, rfl⟩
  · intro z
    unfold snapCenter jsRound
    have h34 : (⌊(3.4 : ℝ) / 1 + 1 / 2⌋ : ℤ) = 3 := by
      rw [Int.floor_eq_iff]
      norm_num
    have h76 : (⌊(7.6 : ℝ) / 1 + 1 / 2⌋ : ℤ) = 8 := by
      rw [Int.floor_eq_iff]
      norm_num
    rw [h34, h76]
    norm_num

/-- Witness for `texelSnapping_correct`: round-trip extraction of a
`(-7, 7, 7, -7)` projection, the half-texel bound at `x = 3.4`, `tw = 1`,
and the claimed snapping example. -/
theorem texelSnapping_correct_witness :
    ((-7 : ℝ) < 7 ∧ (0 : ℝ) < 1) ∧
    extractOrthographicTuple (Mat4.makeOrthographic (-7) 7 7 (-7) 0 14) =
      (-7, 7, 7, -7) ∧
    |jsRound ((3.4 : ℝ) / 1) * 1 - 3.4| ≤ 1 / 2 ∧
    snapCenter ⟨3.4, 7.6, 5⟩ 1 1 = ⟨3, 8, 5⟩ := by
  refine ⟨⟨by norm_num, by norm_num⟩, ?_, ?_, ?_⟩
  · exact texelSnapping_correct.1 (-7) 7 7 (-7) 0 14 (by norm_num)
      (by norm_num)
  · exact texelSnapping_correct.2.1 3.4 1 (by norm_num)
  · exact texelSnapping_correct.2.2.2 5

/-! ### Claim C2 -/

theorem updateD_interval (st : CascadedShadows) (cam : PerspectiveCam)
    (sunDirection : Vec3) (ellipsoid : EllipsoidM) (i : ℕ)
    (h : i < st.cascades.length) :
    ((updateD st cam sunDirection ellipsoid).cascades.getD i
        default).interval =
      ⟨if i = 0 then 0
        else
          (splitFrustum st.mode st.cascades.length cam.near
            (Min.min st.far cam.far) st.lambda).getD (i - 1) 0,
       (splitFrustum st.mode st.cascades.length cam.near
         (Min.min st.far cam.far) st.lambda).getD i 0⟩ := by
  rw [updateD_cascades_getD st cam sunDirection ellipsoid i h]
  rfl

/-- The interval shape after `update`: per-cascade intervals are ordered
(`x < y`), consecutive intervals chain, the first starts at 0 (not at
`camera.near`), and the last ends at `min(this.far, camera.far)`. -/
def UpdateIntervalsProp (st : CascadedShadows) (cam : PerspectiveCam)
    (st2 : CascadedShadows) : Prop :=
  (∀ i, i < st2.cascades.length →
    (st2.cascades.getD i default).interval.x <
      (st2.cascades.getD i default).interval.y) ∧
  (∀ i, i + 1 < st2.cascades.length →
    (st2.cascades.getD i default).interval.y =
      (st2.cascades.getD (i + 1) default).interval.x) ∧
  (0 < st2.cascades.length →
    (st2.cascades.getD 0 default).interval.x = 0) ∧
  (0 < st2.cascades.length →
    (st2.cascades.getD (st2.cascades.length - 1) default).interval.y =
      Min.min st.far cam.far)

/-- C2 (amended): after `update`, the cascade intervals are ordered,
non-overlapping and chaining, and their concatenation covers exactly
`[0, min(this.far, camera.far)]` — the first cascade's interval starts at 0
(`splits[-1] ?? 0`), not at `camera.near` as claimed. -/
theorem update_intervals_correct (st : CascadedShadows)
    (cam : PerspectiveCam) (sunDirection : Vec3) (ellipsoid : EllipsoidM)
    (st2 : CascadedShadows)
    (hok : update st cam sunDirection ellipsoid = Except.ok st2)
    (hnear : 0 < cam.near) (hnf : cam.near < Min.min st.far cam.far)
    (hl0 : 0 ≤ st.lambda) (hl1 : st.lambda ≤ 1) :
    UpdateIntervalsProp st cam st2 := by
  have hd := update_eq_ok st cam sunDirection ellipsoid
  rw [hok] at hd
  have hst2 : st2 = updateD st cam sunDirection ellipsoid := Except.ok.inj hd
  subst hst2
  have hlen := updateD_cascades_length st cam sunDirection ellipsoid
  unfold UpdateIntervalsProp
  rw [hlen]
  refine ⟨?_, ?_, ?_, ?_⟩
  · intro i hi
    rw [updateD_interval st cam sunDirection ellipsoid i hi]
    by_cases h0 : i = 0
    · subst h0
      simp only [if_pos rfl]
      show (0 : ℝ) <
        (splitFrustum st.mode st.cascades.length cam.near
          (Min.min st.far cam.far) st.lambda).getD 0 0
      rw [splitFrustum_getD _ _ _ _ _ 0 hi]
      exact lt_trans hnear
        (splitValue_mem st.mode st.cascades.length cam.near
          (Min.min st.far cam.far) st.lambda hi hnear hnf hl0 hl1 hi).1
    · simp only [if_neg h0]
      show (splitFrustum st.mode st.cascades.length cam.near
          (Min.min st.far cam.far) st.lambda).getD (i - 1) 0 <
        (splitFrustum st.mode st.cascades.length cam.near
          (Min.min st.far cam.far) st.lambda).getD i 0
      rw [splitFrustum_getD _ _ _ _ _ (i - 1) (by omega),
        splitFrustum_getD _ _ _ _ _ i hi]
      exact splitValue_lt st.mode st.cascades.length cam.near
        (Min.min st.far cam.far) st.lambda (by omega) hnear hnf hl0 hl1
        (by omega)
  · intro i hi
    rw [updateD_interval st cam sunDirection ellipsoid i (by omega),
      updateD_interval st cam sunDirection ellipsoid (i + 1) hi]
    simp
  · intro h0
    rw [updateD_interval st cam sunDirection ellipsoid 0 h0]
    simp
  · intro h0
    rw [updateD_interval st cam sunDirection ellipsoid
      (st.cascades.length - 1) (by omega)]
    show (splitFrustum st.mode st.cascades.length cam.near
        (Min.min st.far cam.far) st.lambda).getD (st.cascades.length - 1) 0 =
      Min.min st.far cam.far
    rw [splitFrustum_getD _ _ _ _ _ (st.cascades.length - 1) (by omega)]
    exact splitValue_last st.mode st.cascades.length cam.near
      (Min.min st.far cam.far) st.lambda h0 hnear

/-- Witness for `update_intervals_correct` at the concrete one-cascade state
and camera. -/
theorem update_intervals_correct_witness :
    (update stWitnessState camWitness sunWitness ellWitness =
      Except.ok (updateD stWitnessState camWitness sunWitness ellWitness)) ∧
    ((0 : ℝ) < camWitness.near ∧
      camWitness.near < Min.min stWitnessState.far camWitness.far ∧
      (0 : ℝ) ≤ stWitnessState.lambda ∧ stWitnessState.lambda ≤ 1) ∧
    UpdateIntervalsProp stWitnessState camWitness
      (updateD stWitnessState camWitness sunWitness ellWitness) := by
  refine ⟨update_eq_ok _ _ _ _, ⟨?_, ?_, ?_, ?_⟩, ?_⟩
  · norm_num [camWitness]
  · norm_num [camWitness, stWitnessState]
  · norm_num [stWitnessState]
  · norm_num [stWitnessState]
  · exact update_intervals_correct stWitnessState camWitness sunWitness
      ellWitness _ (update_eq_ok _ _ _ _) (by norm_num [camWitness])
      (by norm_num [camWitness, stWitnessState])
      (by norm_num [stWitnessState]) (by norm_num [stWitnessState])

/-- C2 counterexample: with `camera.near = 1`, the first cascade's interval
after `update` starts at 0, not at `camera.near`. -/
theorem update_intervals_claim_counterexample :
    ¬(((updateD stWitnessState camWitness sunWitness
          ellWitness).cascades.getD 0 default).interval.x =
        camWitness.near) := by
  intro hx
  rw [updateD_interval stWitnessState camWitness sunWitness ellWitness 0
    (by simp [stWitnessState])] at hx
  simp only [if_pos rfl] at hx
  norm_num [camWitness] at hx

/-! ### Claim C8 -/

/-- C8: after `update`, cascade `i`'s projection matrix is the symmetric
orthographic projection with `left = -radius`, `right = radius`,
`top = radius`, `bottom = -radius`, `near = -margin`,
`far = 2 * radius + margin`, where `radius` is the fitted radius of the
cascade's sub-frustum (`cascadeRadius`, i.e. `getFrustumRadius` applied to
the sub-frustum that `updateIntervals` just computed). -/
theorem updateProjection_correct (st : CascadedShadows)
    (cam : PerspectiveCam) (sunDirection : Vec3) (ellipsoid : EllipsoidM)
    (st2 : CascadedShadows)
    (hok : update st cam sunDirection ellipsoid = Except.ok st2) (i : ℕ)
    (hi : i < st2.cascades.length) :
    (st2.cascades.getD i default).projectionMatrix =
      Mat4.makeOrthographic (-(cascadeRadius st cam i))
        (cascadeRadius st cam i) (cascadeRadius st cam i)
        (-(cascadeRadius st cam i)) (-st.margin)
        (cascadeRadius st cam i * 2 + st.margin) := by
  have hd := update_eq_ok st cam sunDirection ellipsoid
  rw [hok] at hd
  have hst2 : st2 = updateD st cam sunDirection ellipsoid := Except.ok.inj hd
  subst hst2
  rw [updateD_cascades_getD st cam sunDirection ellipsoid i
    (by rwa [updateD_cascades_length] at hi)]
  rfl

/-- Witness for `updateProjection_correct` at the concrete one-cascade
state, camera and sun direction, cascade 0. -/
theorem updateProjection_correct_witness :
    (update stWitnessState camWitness sunWitness ellWitness =
      Except.ok (updateD stWitnessState camWitness sunWitness ellWitness)) ∧
    0 < (updateD stWitnessState camWitness sunWitness
        ellWitness).cascades.length ∧
    ((updateD stWitnessState camWitness sunWitness ellWitness).cascades.getD
        0 default).projectionMatrix =
      Mat4.makeOrthographic (-(cascadeRadius stWitnessState camWitness 0))
        (cascadeRadius stWitnessState camWitness 0)
        (cascadeRadius stWitnessState camWitness 0)
        (-(cascadeRadius stWitnessState camWitness 0))
        (-stWitnessState.margin)
        (cascadeRadius stWitnessState camWitness 0 * 2 +
          stWitnessState.margin) := by
  have hlen : 0 < (updateD stWitnessState camWitness sunWitness
      ellWitness).cascades.length := by
    rw [updateD_cascades_length]
    simp [stWitnessState]
  exact ⟨update_eq_ok _ _ _ _, hlen,
    updateProjection_correct stWitnessState camWitness sunWitness ellWitness
      _ (update_eq_ok _ _ _ _) 0 hlen⟩

/-! ### Claim C9 -/

/-- C9: within `update`, after `updateIntervals` runs, the frusta list and
the cascade list have equal length, so the invariant assertions never fire
and `update` always returns a result; and whenever the lengths do differ,
both `updateProjectionMatrix` and `updateInverseViewMatrix` fail fast with
an invariant error, producing no cascade output. -/
theorem update_invariant_safety (st : CascadedShadows)
    (cam : PerspectiveCam) (sunDirection : Vec3) (ellipsoid : EllipsoidM) :
    ((updateIntervals st cam).frusta.length =
      (updateIntervals st cam).cascades.length) ∧
    update st cam sunDirection ellipsoid =
      Except.ok (updateD st cam sunDirection ellipsoid) ∧
    (st.frusta.length ≠ st.cascades.length →
      updateProjectionMatrix st cam = Except.error invariantMessage ∧
      updateInverseViewMatrix st cam sunDirection ellipsoid =
        Except.error invariantMessage) := by
  refine ⟨?_, update_eq_ok st cam sunDirection ellipsoid, ?_⟩
  · rw [updateIntervals_frusta_length, updateIntervals_cascades_length]
  · intro h
    constructor
    · simp only [updateProjectionMatrix, if_neg h]
    · simp only [updateInverseViewMatrix, if_neg h]

/-- Witness for `update_invariant_safety`: the initial one-cascade state has
an empty frusta list, so calling the two methods directly on it errors. -/
theorem update_invariant_safety_witness :
    stWitnessState.frusta.length ≠ stWitnessState.cascades.length ∧
    updateProjectionMatrix stWitnessState camWitness =
      Except.error invariantMessage ∧
    updateInverseViewMatrix stWitnessState camWitness sunWitness ellWitness =
      Except.error invariantMessage := by
  have h : stWitnessState.frusta.length ≠ stWitnessState.cascades.length := by
    simp [stWitnessState]
  exact ⟨h, (update_invariant_safety stWitnessState camWitness sunWitness
    ellWitness).2.2 h⟩

/-! ### Claim C10 -/

/-- C10: the zenith factor is the raw, unclamped dot product: the light
distance is `1e6 + (1e3 - 1e6) * dot` for every dot; at `dot = 0` it is
exactly `1e6`, at `dot = 1` exactly `1e3`, and at `dot = -1` it
extrapolates linearly to `1999000` rather than being clamped. -/
theorem lightDistance_correct :
    (∀ (cam : PerspectiveCam) (sun : Vec3) (ell : EllipsoidM),
      lightDistance cam sun ell =
        1e6 + (1e3 - 1e6) *
          (sun.dot (ell.getSurfaceNormal cam.worldPosition))) ∧
    (∀ (cam : PerspectiveCam) (sun : Vec3) (ell : EllipsoidM),
      sun.dot (ell.getSurfaceNormal cam.worldPosition) = 0 →
        lightDistance cam sun ell = 1e6) ∧
    (∀ (cam : PerspectiveCam) (sun : Vec3) (ell : EllipsoidM),
      sun.dot (ell.getSurfaceNormal cam.worldPosition) = 1 →
        lightDistance cam sun ell = 1e3) ∧
    (∀ (cam : PerspectiveCam) (sun : Vec3) (ell : EllipsoidM),
      sun.dot (ell.getSurfaceNormal cam.worldPosition) = -1 →
        lightDistance cam sun ell = 1999000) := by
  refine ⟨fun cam sun ell => rfl, ?_, ?_, ?_⟩ <;>
    · intro cam sun ell h
      unfold lightDistance lerp
      rw [h]
      norm_num

/-- The surface normal of the unit sphere at the witness camera position
`(1, 0, 0)`. -/
theorem surfaceNormal_witness :
    ellWitness.getSurfaceNormal camWitness.worldPosition = ⟨1, 0, 0⟩ := by
  have hpos : camWitness.worldPosition = ⟨1, 0, 0⟩ := rfl
  rw [hpos]
  unfold EllipsoidM.getSurfaceNormal ellWitness
  have hv : (⟨(1 : ℝ) / (1 * 1), 0 / (1 * 1), 0 / (1 * 1)⟩ : Vec3) =
      ⟨1, 0, 0⟩ := by norm_num
  rw [hv]
  unfold Vec3.normalize Vec3.len
  norm_num [Real.sqrt_one]

/-- Witness for `lightDistance_correct`: on the unit sphere with the camera
at `(1, 0, 0)`, sun `(0, 0, 1)` gives dot 0 and distance `1e6`, sun
`(1, 0, 0)` gives dot 1 and distance `1e3`, and sun `(-1, 0, 0)` gives dot
`-1` and distance `1999000`. -/
theorem lightDistance_correct_witness :
    (sunWitness.dot (ellWitness.getSurfaceNormal camWitness.worldPosition) =
        0 ∧
      lightDistance camWitness sunWitness ellWitness = 1e6) ∧
    ((Vec3.mk 1 0 0).dot
        (ellWitness.getSurfaceNormal camWitness.worldPosition) = 1 ∧
      lightDistance camWitness ⟨1, 0, 0⟩ ellWitness = 1e3) ∧
    ((Vec3.mk (-1) 0 0).dot
        (ellWitness.getSurfaceNormal camWitness.worldPosition) = -1 ∧
      lightDistance camWitness ⟨-1, 0, 0⟩ ellWitness = 1999000) := by
  have hn := surfaceNormal_witness
  have h0 : sunWitness.dot
      (ellWitness.getSurfaceNormal camWitness.worldPosition) = 0 := by
    rw [hn]
    norm_num [sunWitness, Vec3.dot]
  have h1 : (Vec3.mk 1 0 0).dot
      (ellWitness.getSurfaceNormal camWitness.worldPosition) = 1 := by
    rw [hn]
    norm_num [Vec3.dot]
  have h2 : (Vec3.mk (-1) 0 0).dot
      (ellWitness.getSurfaceNormal camWitness.worldPosition) = -1 := by
    rw [hn]
    norm_num [Vec3.dot]
  exact ⟨⟨h0, lightDistance_correct.2.1 camWitness sunWitness ellWitness h0⟩,
    ⟨h1, lightDistance_correct.2.2.1 camWitness ⟨1, 0, 0⟩ ellWitness h1⟩,
    ⟨h2, lightDistance_correct.2.2.2 camWitness ⟨-1, 0, 0⟩ ellWitness h2⟩⟩

/-! ### Claim C3 -/

/-- The world-space look-at target of cascade `i` during `update`: the
snapped light-space target taken back to world space. -/
def cascadeWorldTarget (st : CascadedShadows) (cam : PerspectiveCam)
    (sunDirection : Vec3) (i : ℕ) : Vec3 :=
  (lightSpaceTarget st.margin st.cascadeSize
    (cameraToLightMatrix cam sunDirection)
    ((updateIntervals st cam).frusta.getD i default)
    (cascadeProjection st cam i)).applyMatrix4
    (lightOrientationMatrix sunDirection)

/-- The light position of cascade `i` during `update`:
`sunDirection * distance + target`. -/
def cascadeLightPosition (st : CascadedShadows) (cam : PerspectiveCam)
    (sunDirection : Vec3) (ellipsoid : EllipsoidM) (i : ℕ) : Vec3 :=
  (sunDirection.multiplyScalar
    (lightDistance cam sunDirection ellipsoid)).add
    (cascadeWorldTarget st cam sunDirection i)

/-- The inverse view matrix the claim asserts: the inverse of the look-at
view transform with eye = position and target = target, i.e. the matrix
whose rotation is the three.js look-at rotation computed from eye =
position toward target, with translation at the light position. -/
def claimedInverseViewMatrix (prev : Mat4) (target position : Vec3) : Mat4 :=
  (prev.lookAtModify position target defaultUp).setPosition position

/-- The inverse view matrix the code actually writes (the amended claim):
the look-at rotation is computed with the eye/target roles reversed
(`lookAt(center, position, up)`), with translation at the light position. -/
def amendedInverseViewMatrix (prev : Mat4) (target position : Vec3) : Mat4 :=
  (prev.lookAtModify target position defaultUp).setPosition position

theorem cascadeIVM_e0 (margin cascadeSize : ℝ) (camToLight lightOrient : Mat4)
    (sunDirection : Vec3) (distance : ℝ) (frustum : FrustumCorners)
    (c : Cascade) :
    (cascadeIVM margin cascadeSize camToLight lightOrient sunDirection
        distance frustum c).e0 =
      (lookAtAxes
        ((lightSpaceTarget margin cascadeSize camToLight frustum
          c.projectionMatrix).applyMatrix4 lightOrient)
        ((sunDirection.multiplyScalar distance).add
          ((lightSpaceTarget margin cascadeSize camToLight frustum
            c.projectionMatrix).applyMatrix4 lightOrient))
        defaultUp).1.x := rfl

theorem claimedInverseViewMatrix_e0 (prev : Mat4) (target position : Vec3) :
    (claimedInverseViewMatrix prev target position).e0 =
      (lookAtAxes position target defaultUp).1.x := rfl

/-- The three.js look-at x-axis when the eye-to-target offset is `(0,0,-d)`
with `d > 0` and the up vector is `(0,1,0)`. -/
theorem lookAtAxes_negZ (eye target : Vec3) (d : ℝ) (hd : 0 < d)
    (h : eye.sub target = ⟨0, 0, -d⟩) :
    (lookAtAxes eye target defaultUp).1.x = -1 := by
  have h1 : Vec3.lengthSq ⟨0, 0, -d⟩ ≠ 0 := by
    show (0 : ℝ) * 0 + 0 * 0 + -d * -d ≠ 0
    nlinarith [mul_pos hd hd]
  have h2 : Vec3.normalize ⟨0, 0, -d⟩ = ⟨0, 0, -1⟩ := by
    unfold Vec3.normalize Vec3.len
    simp [Real.sqrt_mul_self hd.le, hd.ne', neg_div]
  have h3 : Vec3.cross defaultUp ⟨0, 0, -1⟩ = ⟨-1, 0, 0⟩ := by
    unfold Vec3.cross defaultUp
    norm_num
  have h4 : Vec3.lengthSq ⟨-1, 0, 0⟩ ≠ 0 := by
    show (-1 : ℝ) * -1 + 0 * 0 + 0 * 0 ≠ 0
    norm_num
  have h5 : Vec3.normalize ⟨-1, 0, 0⟩ = ⟨-1, 0, 0⟩ := by
    unfold Vec3.normalize Vec3.len
    norm_num [Real.sqrt_one]
  simp [lookAtAxes, lookAtZ, h, h1, h2, h3, h4, h5]

/-- The three.js look-at x-axis when the eye-to-target offset is `(0,0,d)`
with `d > 0` and the up vector is `(0,1,0)`. -/
theorem lookAtAxes_posZ (eye target : Vec3) (d : ℝ) (hd : 0 < d)
    (h : eye.sub target = ⟨0, 0, d⟩) :
    (lookAtAxes eye target defaultUp).1.x = 1 := by
  have h1 : Vec3.lengthSq ⟨0, 0, d⟩ ≠ 0 := by
    show (0 : ℝ) * 0 + 0 * 0 + d * d ≠ 0
    nlinarith [mul_pos hd hd]
  have h2 : Vec3.normalize ⟨0, 0, d⟩ = ⟨0, 0, 1⟩ := by
    unfold Vec3.normalize Vec3.len
    simp [Real.sqrt_mul_self hd.le, hd.ne']
  have h3 : Vec3.cross defaultUp ⟨0, 0, 1⟩ = ⟨1, 0, 0⟩ := by
    unfold Vec3.cross defaultUp
    norm_num
  have h4 : Vec3.lengthSq ⟨1, 0, 0⟩ ≠ 0 := by
    show (1 : ℝ) * 1 + 0 * 0 + 0 * 0 ≠ 0
    norm_num
  have h5 : Vec3.normalize ⟨1, 0, 0⟩ = ⟨1, 0, 0⟩ := by
    unfold Vec3.normalize Vec3.len
    norm_num [Real.sqrt_one]
  simp [lookAtAxes, lookAtZ, h, h1, h2, h3, h4, h5]

theorem sunWitness_center_sub (c : Vec3) (d : ℝ) :
    c.sub ((sunWitness.multiplyScalar d).add c) = ⟨0, 0, -d⟩ := by
  simp only [sunWitness, Vec3.sub, Vec3.add, Vec3.multiplyScalar,
    Vec3.mk.injEq]
  refine ⟨by ring, by ring, by ring⟩

theorem sunWitness_add_sub (c : Vec3) (d : ℝ) :
    ((sunWitness.multiplyScalar d).add c).sub c = ⟨0, 0, d⟩ := by
  simp only [sunWitness, Vec3.sub, Vec3.add, Vec3.multiplyScalar,
    Vec3.mk.injEq]
  refine ⟨by ring, by ring, by ring⟩

/-- The light placement contract (amended): the light-space target's z is
the light-space bounding box's max z plus the margin; the distance is
`lerp(1e6, 1e3, dot(sunDirection, surface normal at the camera))`; the
final position is `target + sunDirection * distance`; and the cascade's
inverse view matrix has that position as translation with the look-at
rotation computed with eye = target and target = position. -/
def InverseViewProp (st : CascadedShadows) (cam : PerspectiveCam)
    (sunDirection : Vec3) (ellipsoid : EllipsoidM) (st2 : CascadedShadows)
    (i : ℕ) : Prop :=
  (lightSpaceTarget st.margin st.cascadeSize
      (cameraToLightMatrix cam sunDirection)
      ((updateIntervals st cam).frusta.getD i default)
      (cascadeProjection st cam i)).z =
    (boxOfFrustum (((updateIntervals st cam).frusta.getD i
        default).applyMatrix4 (cameraToLightMatrix cam sunDirection))).max.z +
      st.margin ∧
  lightDistance cam sunDirection ellipsoid =
    lerp 1e6 1e3
      (sunDirection.dot (ellipsoid.getSurfaceNormal cam.worldPosition)) ∧
  cascadeLightPosition st cam sunDirection ellipsoid i =
    (cascadeWorldTarget st cam sunDirection i).add
      (sunDirection.multiplyScalar (lightDistance cam sunDirection ellipsoid)) ∧
  (st2.cascades.getD i default).inverseViewMatrix =
    amendedInverseViewMatrix
      ((st.cascades.getD i default).inverseViewMatrix)
      (cascadeWorldTarget st cam sunDirection i)
      (cascadeLightPosition st cam sunDirection ellipsoid i)

/-- C3 (amended): after `update`, each cascade's light placement follows the
claim except for the look-at roles: the light-space target z is
`boxMax.z + margin`, the distance is `lerp(1e6, 1e3, zenith dot)`, the
position is `target + sunDirection * distance`, and the inverse view matrix
carries that position as translation — but its rotation is the three.js
look-at rotation computed with eye = target and target = position
(`lookAt(center, position, up)`), the reverse of the claimed eye/target
roles. -/
theorem updateInverseView_correct (st : CascadedShadows)
    (cam : PerspectiveCam) (sunDirection : Vec3) (ellipsoid : EllipsoidM)
    (st2 : CascadedShadows)
    (hok : update st cam sunDirection ellipsoid = Except.ok st2) (i : ℕ)
    (hi : i < st2.cascades.length) :
    InverseViewProp st cam sunDirection ellipsoid st2 i := by
  have hd := update_eq_ok st cam sunDirection ellipsoid
  rw [hok] at hd
  have hst2 : st2 = updateD st cam sunDirection ellipsoid := Except.ok.inj hd
  subst hst2
  rw [updateD_cascades_length] at hi
  refine ⟨rfl, rfl, ?_, ?_⟩
  · show (sunDirection.multiplyScalar
        (lightDistance cam sunDirection ellipsoid)).add
        (cascadeWorldTarget st cam sunDirection i) =
      (cascadeWorldTarget st cam sunDirection i).add
        (sunDirection.multiplyScalar (lightDistance cam sunDirection ellipsoid))
    simp only [Vec3.add, Vec3.mk.injEq]
    refine ⟨by ring, by ring, by ring⟩
  · rw [updateD_cascades_getD st cam sunDirection ellipsoid i hi]
    rfl

/-- Witness for `updateInverseView_correct` at the concrete one-cascade
state, camera, sun direction and ellipsoid, cascade 0. -/
theorem updateInverseView_correct_witness :
    (update stWitnessState camWitness sunWitness ellWitness =
      Except.ok (updateD stWitnessState camWitness sunWitness ellWitness)) ∧
    0 < (updateD stWitnessState camWitness sunWitness
        ellWitness).cascades.length ∧
    InverseViewProp stWitnessState camWitness sunWitness ellWitness
      (updateD stWitnessState camWitness sunWitness ellWitness) 0 := by
  have hlen : 0 < (updateD stWitnessState camWitness sunWitness
      ellWitness).cascades.length := by
    rw [updateD_cascades_length]
    simp [stWitnessState]
  exact ⟨update_eq_ok _ _ _ _, hlen,
    updateInverseView_correct stWitnessState camWitness sunWitness ellWitness
      _ (update_eq_ok _ _ _ _) 0 hlen⟩

/-- C3 counterexample: at the concrete witness input, the inverse view
matrix written by `update` differs from the claimed look-at (eye = position,
target = target): its first rotation entry is `-1` where the claimed matrix
has `1`, because the code calls `lookAt(center, position, up)` with the
eye/target roles reversed. -/
theorem updateInverseView_claim_counterexample :
    ¬(((updateD stWitnessState camWitness sunWitness
          ellWitness).cascades.getD 0 default).inverseViewMatrix =
        claimedInverseViewMatrix
          ((stWitnessState.cascades.getD 0 default).inverseViewMatrix)
          (cascadeWorldTarget stWitnessState camWitness sunWitness 0)
          (cascadeLightPosition stWitnessState camWitness sunWitness
            ellWitness 0)) := by
  have h01 : 0 < stWitnessState.cascades.length := by simp [stWitnessState]
  have hdot : sunWitness.dot
      (ellWitness.getSurfaceNormal camWitness.worldPosition) = 0 := by
    rw [surfaceNormal_witness]
    norm_num [sunWitness, Vec3.dot]
  have hdist : lightDistance camWitness sunWitness ellWitness = 1e6 := by
    unfold lightDistance lerp
    rw [hdot]
    norm_num
  have hdpos : 0 < lightDistance camWitness sunWitness ellWitness := by
    rw [hdist]
    norm_num
  intro hEq
  have hL : ((updateD stWitnessState camWitness sunWitness
      ellWitness).cascades.getD 0 default).inverseViewMatrix.e0 = -1 := by
    rw [updateD_cascades_getD stWitnessState camWitness sunWitness ellWitness
      0 h01]
    show (cascadeIVM stWitnessState.margin stWitnessState.cascadeSize
      (cameraToLightMatrix camWitness sunWitness)
      (lightOrientationMatrix sunWitness) sunWitness
      (lightDistance camWitness sunWitness ellWitness)
      ((updateIntervals stWitnessState camWitness).frusta.getD 0 default)
      (cascadeAfterProjection stWitnessState camWitness 0)).e0 = -1
    rw [cascadeIVM_e0]
    exact lookAtAxes_negZ _ _ _ hdpos (sunWitness_center_sub _ _)
  have hR : (claimedInverseViewMatrix
      ((stWitnessState.cascades.getD 0 default).inverseViewMatrix)
      (cascadeWorldTarget stWitnessState camWitness sunWitness 0)
      (cascadeLightPosition stWitnessState camWitness sunWitness
        ellWitness 0)).e0 = 1 := by
    rw [claimedInverseViewMatrix_e0]
    exact lookAtAxes_posZ _ _ _ hdpos (sunWitness_add_sub _ _)
  rw [hEq, hR] at hL
  norm_num at hL

end

end CSM
